import Mathlib

/-!
Lab7: agents, battle queue, detection and resolution

A shallow embedding of the simulation's core (`npc.cpp`, `visitor.cpp`,
`observer.cpp`, `game_engine.cpp`) and the properties proved of it.

Conventions of the embedding:

* a `shared_ptr<NPC>` / `NPC*` is a reference `Ref` into a `Heap`; the null
  pointer is `none`; pointer equality is equality of references;
* a `double` is an exact number: coordinates are rationals and the result of
  `std::sqrt` in `calculateDistance` is kept exactly as a `Distance` (rounding
  is not modelled); in `move`, where the root enters the arithmetic, `std::sqrt`
  and the draw of a direction are parameters (`MoveLib`);
* every operation runs atomically, so the mutexes do not appear;
* the shared generator `NPC::rng` is the stream of outputs it has yet to
  produce.
-/

namespace Lab7

/-! ## Agents -/

/-- The three concrete classes deriving from `NPC`. -/
inductive Species where
  | Squirrel
  | Werewolf
  | Druid
deriving DecidableEq, Repr

/-- The fields of `class NPC`, with the dynamic type of the object. -/
structure NPC where
  species : Species
  name : String
  x : ℚ
  y : ℚ
  alive : Bool
deriving DecidableEq

/-- A non-null pointer to an agent. -/
abbrev Ref := Nat

/-- The agents that pointers refer to. -/
abbrev Heap := Ref → NPC

/-- The constructor `NPC::NPC(name, x, y)` of the given class: `alive(true)`. -/
def NPC.new (species : Species) (name : String) (x y : ℚ) : NPC :=
  { species := species, name := name, x := x, y := y, alive := true }

/-- `NPC::getName`. -/
def NPC.getName (h : Heap) (self : Ref) : String := (h self).name

/-- `NPC::getType`: the `dynamic_cast` chain. -/
def NPC.getType (h : Heap) (self : Ref) : String :=
  match (h self).species with
  | .Squirrel => "Squirrel"
  | .Werewolf => "Werewolf"
  | .Druid => "Druid"

/-- `NPC::isAlive`. -/
def NPC.isAlive (h : Heap) (self : Ref) : Bool := (h self).alive

/-- `NPC::setAlive`. -/
def NPC.setAlive (h : Heap) (self : Ref) (status : Bool) : Heap :=
  Function.update h self { h self with alive := status }

/-- `NPC::setPosition`. -/
def NPC.setPosition (h : Heap) (self : Ref) (newX newY : ℚ) : Heap :=
  Function.update h self { h self with x := newX, y := newY }

/-- `Squirrel::canAttack`. -/
def Squirrel.canAttack (h : Heap) (other : Option Ref) : Bool :=
  match other with
  | none => false
  | some o =>
    if !NPC.isAlive h o then false
    else
      let type := NPC.getType h o
      type == "Werewolf" || type == "Druid"

/-- `Werewolf::canAttack`. -/
def Werewolf.canAttack (h : Heap) (other : Option Ref) : Bool :=
  match other with
  | none => false
  | some o =>
    if !NPC.isAlive h o then false
    else NPC.getType h o == "Druid"

/-- `Druid::canAttack`. -/
def Druid.canAttack (_h : Heap) (_other : Option Ref) : Bool := false

/-- The virtual call `self->canAttack(other)`. -/
def NPC.canAttack (h : Heap) (self : Ref) (other : Option Ref) : Bool :=
  match (h self).species with
  | .Squirrel => Squirrel.canAttack h other
  | .Werewolf => Werewolf.canAttack h other
  | .Druid => Druid.canAttack h other

/-- `Squirrel::getMoveDistance`, `Werewolf::getMoveDistance`,
`Druid::getMoveDistance` behind the virtual call. -/
def NPC.getMoveDistance (h : Heap) (self : Ref) : ℚ :=
  match (h self).species with
  | .Squirrel => 5
  | .Werewolf => 40
  | .Druid => 10

/-- `Squirrel::getMapSymbol`, `Werewolf::getMapSymbol`, `Druid::getMapSymbol`
behind the virtual call. -/
def NPC.getMapSymbol (h : Heap) (self : Ref) : Char :=
  match (h self).species with
  | .Squirrel => 'S'
  | .Werewolf => 'W'
  | .Druid => 'D'

/-- `NPC::isValidCoordinates`. -/
def NPC.isValidCoordinates (x y : ℚ) : Bool :=
  decide (x > 0) && decide (x ≤ 500) && decide (y > 0) && decide (y ≤ 500)

/-! ## Distances

`calculateDistance` returns `std::sqrt (dx * dx + dy * dy)`, which is irrational
in general. A `Distance` is the non-negative real `√radicand`, stored by its
radicand, so that the comparisons of the program stay exact and decidable. -/

/-- The non-negative real number `√radicand`. -/
structure Distance where
  radicand : ℚ
deriving DecidableEq

/-- The result of `std::sqrt q`. -/
def Distance.sqrt (q : ℚ) : Distance := ⟨q⟩

/-- The distance whose value is the non-negative literal `q` (it is `√(q * q)`). -/
def Distance.ofRat (q : ℚ) : Distance := ⟨q * q⟩

/-- Order of the values: `√a ≤ √b` is `a ≤ b`. -/
instance : LE Distance := ⟨fun a b => a.radicand ≤ b.radicand⟩

/-- Strict order of the values: `√a < √b` is `a < b`. -/
instance : LT Distance := ⟨fun a b => a.radicand < b.radicand⟩

instance (a b : Distance) : Decidable (a ≤ b) :=
  inferInstanceAs (Decidable (a.radicand ≤ b.radicand))

instance (a b : Distance) : Decidable (a < b) :=
  inferInstanceAs (Decidable (a.radicand < b.radicand))

/-- `Squirrel::getAttackDistance`, `Werewolf::getAttackDistance`,
`Druid::getAttackDistance` behind the virtual call. -/
def NPC.getAttackDistance (h : Heap) (self : Ref) : Distance :=
  match (h self).species with
  | .Squirrel => Distance.ofRat 5
  | .Werewolf => Distance.ofRat 5
  | .Druid => Distance.ofRat 10

/-- `NPC::calculateDistance`. -/
def NPC.calculateDistance (h : Heap) (self : Ref) (other : Option Ref) : Distance :=
  match other with
  | none => Distance.ofRat 999999
  | some o =>
    if !NPC.isAlive h o then Distance.ofRat 999999
    else if o = self then Distance.ofRat 0
    else
      let dx := (h self).x - (h o).x
      let dy := (h self).y - (h o).y
      Distance.sqrt (dx * dx + dy * dy)

/-! ## The shared random generator -/

/-- State of the static generator `NPC::rng`: `out n` is the `n`-th output it
will produce from now on. -/
structure Rng where
  out : Nat → Nat

/-- One call of the generator: its next output and the advanced state. -/
def Rng.next (g : Rng) : Nat × Rng := (g.out 0, ⟨fun n => g.out (n + 1)⟩)

/-- The distribution `NPC::dice(1, 6)` applied to one output of the generator. -/
def dice (w : Nat) : Nat := w % 6 + 1

/-- `NPC::rollDice` : `dice(rng)`. -/
def NPC.rollDice (g : Rng) : Nat × Rng :=
  let (w, g1) := g.next
  (dice w, g1)

/-- `Squirrel::tryAttack`: the result and the generator afterwards. -/
def Squirrel.tryAttack (h : Heap) (other : Option Ref) (g : Rng) : Bool × Rng :=
  if !Squirrel.canAttack h other then (false, g)
  else
    let (attackRoll, g1) := NPC.rollDice g
    let (defenseRoll, g2) := NPC.rollDice g1
    (decide (attackRoll > defenseRoll), g2)

/-- `Werewolf::tryAttack`: the result and the generator afterwards. -/
def Werewolf.tryAttack (h : Heap) (other : Option Ref) (g : Rng) : Bool × Rng :=
  if !Werewolf.canAttack h other then (false, g)
  else
    let (attackRoll, g1) := NPC.rollDice g
    let (defenseRoll, g2) := NPC.rollDice g1
    (decide (attackRoll > defenseRoll), g2)

/-- `Druid::tryAttack`. -/
def Druid.tryAttack (_h : Heap) (_other : Option Ref) (g : Rng) : Bool × Rng := (false, g)

/-- The virtual call `self->tryAttack(other)`. -/
def NPC.tryAttack (h : Heap) (self : Ref) (other : Option Ref) (g : Rng) : Bool × Rng :=
  match (h self).species with
  | .Squirrel => Squirrel.tryAttack h other g
  | .Werewolf => Werewolf.tryAttack h other g
  | .Druid => Druid.tryAttack h other g

/-! ## The battle queue -/

/-- `struct BattleTask`: two shared pointers, null by default. -/
structure BattleTask where
  attacker : Option Ref := none
  defender : Option Ref := none
deriving DecidableEq, Repr

/-- `class BattleQueue`: `tasks.front()` is the head of the list. -/
structure BattleQueue where
  tasks : List BattleTask := []
  stopFlag : Bool := false
deriving DecidableEq, Repr

/-- `BattleQueue::addTask`. -/
def BattleQueue.addTask (q : BattleQueue) (task : BattleTask) : BattleQueue :=
  { q with tasks := q.tasks ++ [task] }

/-- `BattleQueue::tryGetTask`, with no other thread running: the wait ends at
once when a task is buffered or the queue is stopped, and by timeout otherwise.
Returns the result, the caller's `task` and the queue afterwards. -/
def BattleQueue.tryGetTask (q : BattleQueue) (task : BattleTask) :
    Bool × BattleTask × BattleQueue :=
  if q.stopFlag && q.tasks.isEmpty then (false, task, q)
  else
    match q.tasks with
    | front :: rest => (true, front, { q with tasks := rest })
    | [] => (false, task, q)

/-- `BattleQueue::stop`. -/
def BattleQueue.stop (q : BattleQueue) : BattleQueue := { q with stopFlag := true }

/-- `BattleQueue::isEmpty`. -/
def BattleQueue.isEmpty (q : BattleQueue) : Bool := q.tasks.isEmpty

/-- `BattleQueue::shouldStop`. -/
def BattleQueue.shouldStop (q : BattleQueue) : Bool := q.stopFlag && q.tasks.isEmpty

/-- `BattleQueue::size`. -/
def BattleQueue.size (q : BattleQueue) : Nat := q.tasks.length

/-! ## Detection -/

/-- `class DetectionVisitor`, without the queue it refers to. -/
structure DetectionVisitor where
  npcs : List (Option Ref)
  currentNPC : Option Ref

/-- The first loop of `DetectionVisitor::detectForNPC`: the targets kept. -/
def DetectionVisitor.aliveTargets (v : DetectionVisitor) (h : Heap) : List Ref :=
  v.npcs.foldl
    (fun acc target =>
      match target with
      | some t => if target != v.currentNPC && NPC.isAlive h t then acc ++ [t] else acc
      | none => acc)
    []

/-- `DetectionVisitor::detectForNPC`: the battle queue afterwards. -/
def DetectionVisitor.detectForNPC (v : DetectionVisitor) (h : Heap) (npc : Ref)
    (battleQueue : BattleQueue) : BattleQueue :=
  if !NPC.isAlive h npc then battleQueue
  else
    (v.aliveTargets h).foldl
      (fun q target =>
        let distance := NPC.calculateDistance h npc (some target)
        if distance ≤ NPC.getAttackDistance h npc then
          if NPC.canAttack h npc (some target) then
            q.addTask { attacker := v.currentNPC, defender := some target }
          else q
        else q)
      battleQueue

/-- `DetectionVisitor::visit(Squirrel*)`. -/
def DetectionVisitor.visitSquirrel (v : DetectionVisitor) (h : Heap) (squirrel : Ref)
    (battleQueue : BattleQueue) : BattleQueue :=
  v.detectForNPC h squirrel battleQueue

/-- `DetectionVisitor::visit(Werewolf*)`. -/
def DetectionVisitor.visitWerewolf (v : DetectionVisitor) (h : Heap) (werewolf : Ref)
    (battleQueue : BattleQueue) : BattleQueue :=
  v.detectForNPC h werewolf battleQueue

/-- `DetectionVisitor::visit(Druid*)`: the empty body. -/
def DetectionVisitor.visitDruid (_v : DetectionVisitor) (_h : Heap) (_druid : Ref)
    (battleQueue : BattleQueue) : BattleQueue :=
  battleQueue

/-- `Squirrel::accept`, `Werewolf::accept`, `Druid::accept` behind the virtual
call, for a detection visitor. -/
def NPC.accept (h : Heap) (self : Ref) (visitor : DetectionVisitor)
    (battleQueue : BattleQueue) : BattleQueue :=
  match (h self).species with
  | .Squirrel => visitor.visitSquirrel h self battleQueue
  | .Werewolf => visitor.visitWerewolf h self battleQueue
  | .Druid => visitor.visitDruid h self battleQueue

/-- What stops a run short of its result. -/
inductive Fault where
  | nullDereference
  | outOfFuel
deriving DecidableEq, Repr

/-- `DetectionVisitor::detectBattles`: `currentNPC->accept(*this)`. -/
def DetectionVisitor.detectBattles (v : DetectionVisitor) (h : Heap)
    (battleQueue : BattleQueue) : Except Fault BattleQueue :=
  match v.currentNPC with
  | none => .error .nullDereference
  | some cur => .ok (NPC.accept h cur v battleQueue)

/-! ## Event sinks -/

/-- `class BattleSubject` (and `BattleLogger`): the attached observers, each a
pointer. -/
structure BattleSubject where
  observers : List Nat := []
deriving DecidableEq, Repr

/-- The calls `observer->update(event)` made so far, oldest first. -/
abbrev Updates := List (Nat × String)

/-- `BattleSubject::attach`. -/
def BattleSubject.attach (s : BattleSubject) (observer : Nat) : BattleSubject :=
  { s with observers := s.observers ++ [observer] }

/-- `BattleSubject::detach`: erases the first occurrence found. -/
def BattleSubject.detach (s : BattleSubject) (observer : Nat) : BattleSubject :=
  { s with observers := s.observers.erase observer }

/-- `BattleSubject::notify`. -/
def BattleSubject.notify (s : BattleSubject) (event : String) (log : Updates) : Updates :=
  s.observers.foldl (fun l observer => l ++ [(observer, event)]) log

/-- `BattleLogger::logBattleEvent`. -/
def BattleLogger.logBattleEvent (s : BattleSubject) (event : String) (log : Updates) :
    Updates :=
  s.notify event log

/-! ## The engine -/

/-- `class GameEngine` (its queue, logger and running flag; the worker threads
are left out), together with what its methods act on outside the object: the
agents, the generator `NPC::rng`, the strings written to `std::cout` and the
calls received by the observers. -/
structure GameEngine where
  npcs : List (Option Ref)
  battleQueue : BattleQueue
  battleLogger : BattleSubject
  gameRunning : Bool
  elapsedTime : Int
  heap : Heap
  rng : Rng
  cout : List String
  updates : Updates

/-- `GameEngine::safePrint`. -/
def GameEngine.safePrint (e : GameEngine) (message : String) : GameEngine :=
  { e with cout := e.cout ++ [message] }

/-- `GameEngine::stop`. -/
def GameEngine.stop (e : GameEngine) : GameEngine :=
  { e with gameRunning := false, battleQueue := e.battleQueue.stop }

/-- The string built in `ss` by `GameEngine::processBattle`. -/
def GameEngine.killMessage (h : Heap) (attacker defender : Ref) : String :=
  NPC.getName h attacker ++ " (" ++ NPC.getType h attacker ++ ") killed "
    ++ NPC.getName h defender ++ " (" ++ NPC.getType h defender ++ ")\n"

/-- `GameEngine::processBattle`. Dereferencing a null `attacker` or `defender`
is a fault. -/
def GameEngine.processBattle (e : GameEngine) (task : BattleTask) : Except Fault GameEngine :=
  match task.attacker with
  | none => .error .nullDereference
  | some attacker =>
    if !NPC.isAlive e.heap attacker then .ok e
    else
      match task.defender with
      | none => .error .nullDereference
      | some defender =>
        if !NPC.isAlive e.heap defender then .ok e
        else
          let distance := NPC.calculateDistance e.heap attacker (some defender)
          if distance > NPC.getAttackDistance e.heap attacker then .ok e
          else if !NPC.canAttack e.heap attacker (some defender) then .ok e
          else
            let (won, g) := NPC.tryAttack e.heap attacker (some defender) e.rng
            if won then
              let heap1 := NPC.setAlive e.heap defender false
              let ss := GameEngine.killMessage heap1 attacker defender
              let e1 := { e with heap := heap1, rng := g }
              let e2 := e1.safePrint ss
              .ok { e2 with updates := BattleLogger.logBattleEvent e2.battleLogger ss e2.updates }
            else .ok { e with rng := g }

/-- `GameEngine::battleWorker`, with no other thread running; each pass of the
loop costs one unit of fuel, and so does the test that ends it. The second
component lists the tasks handed to `processBattle`, in call order. -/
def GameEngine.battleWorker : Nat → GameEngine → Except Fault (GameEngine × List BattleTask)
  | 0, _ => .error .outOfFuel
  | fuel + 1, e =>
    if e.gameRunning || !e.battleQueue.isEmpty then
      let (got, task, q) := e.battleQueue.tryGetTask {}
      let e1 := { e with battleQueue := q }
      if got then
        match e1.processBattle task with
        | .error f => .error f
        | .ok e2 =>
          match GameEngine.battleWorker fuel e2 with
          | .error f => .error f
          | .ok (e3, handled) => .ok (e3, task :: handled)
      else GameEngine.battleWorker fuel e1
    else .ok (e.safePrint "Battle thread stopped.\n", [])

/-- A generator whose first outputs are the listed ones, followed by zeros. -/
def Rng.ofList (l : List Nat) : Rng := ⟨fun n => l.getD n 0⟩

/-- Two agents: `a` behind reference 0 and `b` behind every other reference. -/
def heap2 (a b : NPC) : Heap := fun r => if r = 0 then a else b

/-! ## Sequences of queue calls -/

/-- One `addTask` call for each task of the list, in order. -/
def BattleQueue.addTasks (q : BattleQueue) (ts : List BattleTask) : BattleQueue :=
  ts.foldl BattleQueue.addTask q

/-- The next `n` calls of `tryGetTask`, each on a default-constructed
`BattleTask`: what each call returned and left in the caller's task, and the
queue afterwards. -/
def BattleQueue.tryGetTasks : Nat → BattleQueue → List (Bool × BattleTask) × BattleQueue
  | 0, q => ([], q)
  | n + 1, q =>
    let (got, task, q1) := q.tryGetTask {}
    let (results, q2) := BattleQueue.tryGetTasks n q1
    ((got, task) :: results, q2)

/-- The public operations of `BattleQueue`. -/
inductive QueueOp where
  | addTask (task : BattleTask)
  | tryGetTask
  | stop
  | isEmpty
  | size
  | shouldStop
deriving DecidableEq, Repr

/-- Whether the operation is an `addTask` call. -/
def QueueOp.isAddTask : QueueOp → Bool
  | .addTask _ => true
  | _ => false

/-- The queue after one public operation. -/
def BattleQueue.step (q : BattleQueue) : QueueOp → BattleQueue
  | .addTask task => q.addTask task
  | .tryGetTask => (q.tryGetTask {}).2.2
  | .stop => q.stop
  | .isEmpty => q
  | .size => q
  | .shouldStop => q

/-- The results of the `tryGetTask` calls among a sequence of public
operations, in call order. -/
def BattleQueue.dequeueResults : BattleQueue → List QueueOp → List Bool
  | _, [] => []
  | q, .tryGetTask :: ops => (q.tryGetTask {}).1 :: BattleQueue.dequeueResults (q.step .tryGetTask) ops
  | q, op :: ops => BattleQueue.dequeueResults (q.step op) ops

/-- The engine of the scenarios: the given agents behind references 0 and 1,
two observers attached, an empty queue. -/
def engine2 (a b : NPC) (g : Rng) : GameEngine :=
  { npcs := [some 0, some 1], battleQueue := {}, battleLogger := { observers := [7, 8] },
    gameRunning := true, elapsedTime := 0, heap := heap2 a b, rng := g, cout := [],
    updates := [] }

/-! ## Reference definitions taken from the specification -/

/-- The intents that detection for `a` is specified to append: `(a, b)` for the
entries `b` of the population, in order, that are non-null, are not `a`, are
alive, lie within `a`'s attack range and can be attacked by `a`. -/
def specIntents (h : Heap) (npcs : List (Option Ref)) (a : Ref) : List BattleTask :=
  npcs.filterMap fun entry =>
    match entry with
    | none => none
    | some b =>
      if b ≠ a ∧ NPC.isAlive h b = true ∧
          NPC.calculateDistance h a (some b) ≤ NPC.getAttackDistance h a ∧
          NPC.canAttack h a (some b) = true then
        some { attacker := some a, defender := some b }
      else none

/-- The event text as the specification words it:
`<attacker> (<species>) killed <defender> (<species>)` and nothing more. -/
def specKillEvent (h : Heap) (attacker defender : Ref) : String :=
  NPC.getName h attacker ++ " (" ++ NPC.getType h attacker ++ ") killed "
    ++ NPC.getName h defender ++ " (" ++ NPC.getType h defender ++ ")"

/-! ## Concrete agents used to instantiate the theorems -/

/-- The squirrel of the test scenarios, at (100, 100). -/
def sq : NPC := NPC.new .Squirrel "Sq" 100 100

/-- The werewolf of the test scenarios, at (101, 101). -/
def wolf : NPC := NPC.new .Werewolf "Wolf" 101 101

/-- The druid of the test scenarios, at (102, 102). -/
def dru : NPC := NPC.new .Druid "Dru" 102 102

/-- The engine of the scenarios after `stop()`, with two intents still
buffered. -/
def engineStopping : GameEngine :=
  GameEngine.stop
    { engine2 sq wolf (Rng.ofList [2, 1]) with
      battleQueue := BattleQueue.addTasks {}
        [{ attacker := some 0, defender := some 1 }, { attacker := some 1, defender := some 0 }] }

/-! ## Movement -/

/-- `NPC::getX`. -/
def NPC.getX (h : Heap) (self : Ref) : ℚ := (h self).x

/-- `NPC::getY`. -/
def NPC.getY (h : Heap) (self : Ref) : ℚ := (h self).y

/-- The library calls of `NPC::move` that the embedding leaves open: `std::sqrt`
on a `double`, and one draw `dirDist(rng)` of the local
`std::uniform_real_distribution<double> dirDist(-1.0, 1.0)`, which returns the
value drawn and the generator afterwards. -/
structure MoveLib where
  sqrt : ℚ → ℚ
  dirDist : Rng → ℚ × Rng

/-- `NPC::move`: the agents and the generator afterwards. -/
def NPC.move (lib : MoveLib) (h : Heap) (self : Ref) (minX maxX minY maxY : ℚ) (g : Rng) :
    Heap × Rng :=
  if !NPC.isAlive h self then (h, g)
  else
    let draw1 := lib.dirDist g
    let draw2 := lib.dirDist draw1.2
    let dirX := draw1.1
    let dirY := draw2.1
    let length := lib.sqrt (dirX * dirX + dirY * dirY)
    let dirX := if length > 0 then dirX / length else dirX
    let dirY := if length > 0 then dirY / length else dirY
    let moveDist := NPC.getMoveDistance h self
    let newX := (h self).x + dirX * moveDist
    let newY := (h self).y + dirY * moveDist
    let newX := if newX < minX then minX else newX
    let newX := if newX > maxX then maxX else newX
    let newY := if newY < minY then minY else newY
    let newY := if newY > maxY then maxY else newY
    (Function.update h self { h self with x := newX, y := newY }, draw2.2)

/-- `GameEngine::MAP_MIN_X`. -/
def GameEngine.MAP_MIN_X : ℚ := 0

/-- `GameEngine::MAP_MAX_X`. -/
def GameEngine.MAP_MAX_X : ℚ := 100

/-- `GameEngine::MAP_MIN_Y`. -/
def GameEngine.MAP_MIN_Y : ℚ := 0

/-- `GameEngine::MAP_MAX_Y`. -/
def GameEngine.MAP_MAX_Y : ℚ := 100

/-- A `std::sqrt` for the examples: exact on the squares of rationals, rounded
down to a multiple of `1 / den` elsewhere. -/
def sqrtFloor (q : ℚ) : ℚ := (Nat.sqrt (q.num.toNat * q.den) : ℚ) / q.den

/-- A `dirDist` for the examples: the output `w` of the generator gives
`(w % 2000) / 1000 - 1`, a value in `[-1, 1)`. -/
def dirDistMod (g : Rng) : ℚ × Rng := (((g.next.1 % 2000 : Nat) : ℚ) / 1000 - 1, g.next.2)

/-- The library of the examples. -/
def libExample : MoveLib := { sqrt := sqrtFloor, dirDist := dirDistMod }

/-! ## The factory -/

/-- `enum class NPCFactory::NPCType`. -/
inductive NPCFactory.NPCType where
  | SQUIRREL
  | WEREWOLF
  | DRUID
deriving DecidableEq, Repr

/-- `NPCFactory::createNPC`: the pointer returned (the object made by
`make_shared`, or null) and what is written to `std::cerr`. -/
def NPCFactory.createNPC (type : NPCFactory.NPCType) (name : String) (x y : ℚ) :
    Option NPC × List String :=
  if !NPC.isValidCoordinates x y then
    (none, ["Error: Coordinates must be in range (0 < x <= 500, 0 < y <= 500)\n"])
  else
    match type with
    | .SQUIRREL => (some (NPC.new .Squirrel name x y), [])
    | .WEREWOLF => (some (NPC.new .Werewolf name x y), [])
    | .DRUID => (some (NPC.new .Druid name x y), [])

/-- `NPCFactory::stringToType`. -/
def NPCFactory.stringToType (typeStr : String) : NPCFactory.NPCType :=
  if typeStr == "SQUIRREL" then .SQUIRREL
  else if typeStr == "WEREWOLF" then .WEREWOLF
  else if typeStr == "DRUID" then .DRUID
  else .SQUIRREL

/-- `NPCFactory::typeToString`. -/
def NPCFactory.typeToString : NPCFactory.NPCType → String
  | .SQUIRREL => "SQUIRREL"
  | .WEREWOLF => "WEREWOLF"
  | .DRUID => "DRUID"

/-- What a call of `NPCFactory::saveToFile` leaves behind. -/
structure SaveOutcome where
  result : Bool
  file : String
  cout : List String
  cerr : List String
deriving DecidableEq, Repr

/-- The loop of `NPCFactory::saveToFile` over the population: the text written
to the file so far, extended. `showDouble` is `operator<<` on a `double`.
Calling `isAlive` through a null entry is a fault. -/
def NPCFactory.saveRecords (showDouble : ℚ → String) (h : Heap) :
    List (Option Ref) → String → Except Fault String
  | [], file => .ok file
  | none :: _, _ => .error .nullDereference
  | some npc :: rest, file =>
    if NPC.isAlive h npc then
      NPCFactory.saveRecords showDouble h rest
        (file ++ NPCFactory.typeToString (NPCFactory.stringToType (NPC.getType h npc)) ++ ","
          ++ NPC.getName h npc ++ "," ++ showDouble (NPC.getX h npc) ++ ","
          ++ showDouble (NPC.getY h npc) ++ "\n")
    else NPCFactory.saveRecords showDouble h rest file

/-- `NPCFactory::saveToFile`; `isOpen` is whether the file could be opened for
writing (it is then empty). -/
def NPCFactory.saveToFile (showDouble : ℚ → String) (h : Heap) (npcs : List (Option Ref))
    (filename : String) (isOpen : Bool) : Except Fault SaveOutcome :=
  if !isOpen then
    .ok { result := false, file := "", cout := [],
          cerr := ["Error: Cannot open file " ++ filename ++ " for writing\n"] }
  else
    match NPCFactory.saveRecords showDouble h npcs "" with
    | .error f => .error f
    | .ok file =>
      .ok { result := true, file := file,
            cout := ["Saved " ++ toString npcs.length ++ " NPCs to " ++ filename ++ "\n"],
            cerr := [] }

/-- An `operator<<` for the examples: integers in decimal, other values as
`num/den`. -/
def showDoubleExample (q : ℚ) : String :=
  if q.den = 1 then toString q.num else toString q.num ++ "/" ++ toString q.den

/-- The species a factory type asks for. -/
def NPCFactory.NPCType.species : NPCFactory.NPCType → Species
  | .SQUIRREL => .Squirrel
  | .WEREWOLF => .Werewolf
  | .DRUID => .Druid

/-! ## Loading the population -/

/-- What a call of `NPCFactory::loadFromFile` leaves behind: the agents made,
in the order of the vector returned, and the text written to the streams. -/
structure LoadOutcome where
  loadedNPCs : List NPC
  cout : List String
  cerr : List String
deriving DecidableEq

/-- The loop of `NPCFactory::loadFromFile` over the lines of the file: the
vector `loadedNPCs` and the text on `std::cerr`, extended. `parseRecord line` is
the chain of extractions `getline(ss, typeStr, ',') && getline(ss, name, ',')
&& (ss >> x) && ss.ignore() && (ss >> y)` on the line: the four values read, or
`none` when one of the extractions fails. -/
def NPCFactory.loadRecords (parseRecord : String → Option (String × String × ℚ × ℚ)) :
    List String → List NPC → List String → List NPC × List String
  | [], loadedNPCs, cerr => (loadedNPCs, cerr)
  | line :: rest, loadedNPCs, cerr =>
    match parseRecord line with
    | some (typeStr, name, x, y) =>
      let type := NPCFactory.stringToType typeStr
      let npc := NPCFactory.createNPC type name x y
      match npc.1 with
      | some made =>
        NPCFactory.loadRecords parseRecord rest (loadedNPCs ++ [made]) (cerr ++ npc.2)
      | none => NPCFactory.loadRecords parseRecord rest loadedNPCs (cerr ++ npc.2)
    | none => NPCFactory.loadRecords parseRecord rest loadedNPCs cerr

/-- `NPCFactory::loadFromFile`; `lines` is the content of the file, line by
line, or `none` when the file cannot be opened for reading. -/
def NPCFactory.loadFromFile (parseRecord : String → Option (String × String × ℚ × ℚ))
    (filename : String) (lines : Option (List String)) : LoadOutcome :=
  match lines with
  | none =>
    { loadedNPCs := [], cout := [],
      cerr := ["Error: Cannot open file " ++ filename ++ " for reading\n"] }
  | some content =>
    let loaded := NPCFactory.loadRecords parseRecord content [] []
    { loadedNPCs := loaded.1,
      cout := ["Loaded " ++ toString loaded.1.length ++ " NPCs from " ++ filename ++ "\n"],
      cerr := loaded.2 }

/-- The characters before the first `c`, and those after it. -/
def fieldUpTo (c : Char) : List Char → List Char × List Char
  | [] => ([], [])
  | d :: rest =>
    if d = c then ([], rest)
    else ((fieldUpTo c rest).1.cons d, (fieldUpTo c rest).2)

/-- The natural number written by a list of decimal digits, if it is one. -/
def readDigits : List Char → Nat → Option Nat
  | [], acc => some acc
  | d :: rest, acc => if d.isDigit then readDigits rest (10 * acc + (d.toNat - 48)) else none

/-- A record parser for the examples: four fields separated by commas, the
coordinates written as non-empty strings of decimal digits. -/
def parseRecordExample (line : String) : Option (String × String × ℚ × ℚ) :=
  let f1 := fieldUpTo ',' line.toList
  let f2 := fieldUpTo ',' f1.2
  let f3 := fieldUpTo ',' f2.2
  if f3.1 = [] ∨ f3.2 = [] then none
  else
    match readDigits f3.1 0, readDigits f3.2 0 with
    | some x, some y => some (String.mk f1.1, String.mk f2.1, (x : ℚ), (y : ℚ))
    | _, _ => none

/-! ## Further reference definitions -/

/-- The agent that one line of the file contributes, if any: the one the
factory makes from the four values read. -/
def lineAgent (parseRecord : String → Option (String × String × ℚ × ℚ)) (line : String) :
    Option NPC :=
  match parseRecord line with
  | some (typeStr, name, x, y) =>
    (NPCFactory.createNPC (NPCFactory.stringToType typeStr) name x y).1
  | none => none

/-- The queue after a sequence of public operations. -/
def BattleQueue.run (q : BattleQueue) (ops : List QueueOp) : BattleQueue :=
  ops.foldl BattleQueue.step q

/-- A generator whose next two dice show `a` and then `d` (each in 1..6). -/
def Rng.rolling (a d : Nat) : Rng := Rng.ofList [a - 1, d - 1]

/-- The 36 pairs of dice values. -/
def rollPairs : List (Nat × Nat) :=
  [1, 2, 3, 4, 5, 6].flatMap fun a => [1, 2, 3, 4, 5, 6].map fun d => (a, d)

/-- The usual `clamp(v, lo, hi)`: `v` raised to `lo`, then lowered to `hi`. -/
def clamp (v lo hi : ℚ) : ℚ := min (max v lo) hi

/-- The reference definition of `move`: nothing for a dead agent; for a living
one at `(x, y)`, with drawn direction `(dx, dy)`, move distance `m` and
`len = sqrt (dx ^ 2 + dy ^ 2)`, the new position is
`(clamp (x + m * dx / len), clamp (y + m * dy / len))`, and `(clamp x, clamp y)`
for the zero direction. -/
def specMove (lib : MoveLib) (h : Heap) (self : Ref) (minX maxX minY maxY : ℚ) (g : Rng) :
    Heap × Rng :=
  if NPC.isAlive h self = false then (h, g)
  else
    let dx := (lib.dirDist g).1
    let dy := (lib.dirDist (lib.dirDist g).2).1
    let m := NPC.getMoveDistance h self
    let len := lib.sqrt (dx ^ 2 + dy ^ 2)
    let x := (h self).x
    let y := (h self).y
    if dx = 0 ∧ dy = 0 then
      (Function.update h self
        { h self with x := clamp x minX maxX, y := clamp y minY maxY },
        (lib.dirDist (lib.dirDist g).2).2)
    else
      (Function.update h self
        { h self with
          x := clamp (x + m * dx / len) minX maxX
          y := clamp (y + m * dy / len) minY maxY },
        (lib.dirDist (lib.dirDist g).2).2)

/-- A living squirrel at (3, 50), within one step of the left edge of the map,
behind reference 0. -/
def heapNearEdge : Heap := heap2 (NPC.new .Squirrel "Sq" 3 50) wolf

/-- The intents of a list resolved one after the other: `processBattle` on each
task in turn, each call on the engine the call before it left. -/
def GameEngine.processAll : List BattleTask → GameEngine → Except Fault GameEngine
  | [], e => .ok e
  | task :: rest, e =>
    match e.processBattle task with
    | .error f => .error f
    | .ok e1 => GameEngine.processAll rest e1

/-! ## Order of distances -/

theorem Distance.le_def (a b : Distance) : a ≤ b ↔ a.radicand ≤ b.radicand := Iff.rfl

theorem Distance.lt_def (a b : Distance) : a < b ↔ a.radicand < b.radicand := Iff.rfl

theorem Distance.not_gt_iff (a b : Distance) : ¬ a < b ↔ b ≤ a := by
  rw [Distance.le_def, Distance.lt_def]
  exact not_lt

/-- The order on `Distance` is the order of the real numbers `√radicand` it
stands for, whenever the radicands are non-negative (as all of the program's
are: sums of two squares, and squares of literals). -/
theorem Distance.le_iff_sqrt_le (a b : Distance) (hb : 0 ≤ b.radicand) :
    a ≤ b ↔ Real.sqrt (a.radicand : ℝ) ≤ Real.sqrt (b.radicand : ℝ) := by
  rw [Distance.le_def, Real.sqrt_le_sqrt_iff (by exact_mod_cast hb)]
  exact_mod_cast Iff.rfl

/-! ## Capability and attack (C1 to C3) -/

/-- C1: for every attacker and every non-null living target, `canAttack` is
true exactly for the species pairs (Squirrel, Werewolf), (Squirrel, Druid) and
(Werewolf, Druid); in particular it is false for every Druid attacker and for
every same-species pair. -/
theorem canAttack_matrix (h : Heap) (attacker target : Ref)
    (halive : NPC.isAlive h target = true) :
    (NPC.canAttack h attacker (some target) = true ↔
      ((h attacker).species = .Squirrel ∧ (h target).species = .Werewolf) ∨
      ((h attacker).species = .Squirrel ∧ (h target).species = .Druid) ∨
      ((h attacker).species = .Werewolf ∧ (h target).species = .Druid)) ∧
    ((h attacker).species = .Druid → NPC.canAttack h attacker (some target) = false) ∧
    ((h attacker).species = (h target).species →
      NPC.canAttack h attacker (some target) = false) := by
  simp only [NPC.isAlive] at halive
  cases ha : (h attacker).species <;> cases ht : (h target).species <;>
    simp [NPC.canAttack, Squirrel.canAttack, Werewolf.canAttack, Druid.canAttack,
      NPC.isAlive, NPC.getType, ha, ht, halive]

theorem canAttack_matrix_witness :
    NPC.isAlive (heap2 sq wolf) 1 = true ∧
    NPC.canAttack (heap2 sq wolf) 0 (some 1) = true ∧
    NPC.canAttack (heap2 sq wolf) 1 (some 0) = false := by
  have h01 := canAttack_matrix (heap2 sq wolf) 0 1 (by decide)
  have h10 := canAttack_matrix (heap2 sq wolf) 1 0 (by decide)
  refine ⟨by decide, h01.1.mpr (Or.inl ⟨by decide, by decide⟩), ?_⟩
  cases hc : NPC.canAttack (heap2 sq wolf) 1 (some 0)
  · rfl
  · exact absurd (h10.1.mp hc) (by decide)

/-- C2: when `canAttack` holds and the two dice show `a` for the attacker and
`d` for the defender (each in 1..6), `tryAttack` returns true exactly when
`a > d`; every tie returns false. Two dice are drawn, the attacker's first. -/
theorem tryAttack_iff_roll_gt (h : Heap) (attacker : Ref) (target : Option Ref) (g : Rng)
    (a d : Nat) (hcan : NPC.canAttack h attacker target = true)
    (ha : (NPC.rollDice g).1 = a) (hd : (NPC.rollDice (NPC.rollDice g).2).1 = d) :
    (1 ≤ a ∧ a ≤ 6 ∧ 1 ≤ d ∧ d ≤ 6) ∧
    ((NPC.tryAttack h attacker target g).1 = true ↔ a > d) ∧
    (a = d → (NPC.tryAttack h attacker target g).1 = false) ∧
    (NPC.tryAttack h attacker target g).2 = (NPC.rollDice (NPC.rollDice g).2).2 := by
  subst ha hd
  have hr : ∀ g : Rng, 1 ≤ (NPC.rollDice g).1 ∧ (NPC.rollDice g).1 ≤ 6 := by
    intro g
    simp only [NPC.rollDice, Rng.next, dice]
    omega
  refine ⟨⟨(hr g).1, (hr g).2, (hr _).1, (hr _).2⟩, ?_⟩
  cases hs : (h attacker).species <;>
    simp_all [NPC.canAttack, NPC.tryAttack, Squirrel.tryAttack, Werewolf.tryAttack,
      Druid.canAttack]

theorem tryAttack_iff_roll_gt_witness :
    NPC.canAttack (heap2 sq wolf) 0 (some 1) = true ∧
    (NPC.tryAttack (heap2 sq wolf) 0 (some 1) (Rng.ofList [2, 1])).1 = true ∧
    (NPC.tryAttack (heap2 sq wolf) 0 (some 1) (Rng.ofList [3, 3])).1 = false :=
  ⟨by decide,
    (tryAttack_iff_roll_gt (heap2 sq wolf) 0 (some 1) (Rng.ofList [2, 1]) 3 2
      (by decide) (by decide) (by decide)).2.1.mpr (by decide),
    (tryAttack_iff_roll_gt (heap2 sq wolf) 0 (some 1) (Rng.ofList [3, 3]) 4 4
      (by decide) (by decide) (by decide)).2.2.1 rfl⟩

/-- Every pair of dice values can come up: some generator rolls `a` then `d`. -/
theorem rollDice_ofList (a d : Nat) (ha : 1 ≤ a ∧ a ≤ 6) (hd : 1 ≤ d ∧ d ≤ 6) :
    (NPC.rollDice (Rng.ofList [a - 1, d - 1])).1 = a ∧
    (NPC.rollDice (NPC.rollDice (Rng.ofList [a - 1, d - 1])).2).1 = d := by
  simp only [NPC.rollDice, Rng.next, Rng.ofList, dice, List.getD_cons_zero,
    List.getD_cons_succ]
  omega

/-- C3: when `canAttack` is false, `tryAttack` returns false for every state of
the generator and draws nothing: the generator is returned as it was. -/
theorem tryAttack_of_not_canAttack (h : Heap) (attacker : Ref) (target : Option Ref)
    (g : Rng) (hcan : NPC.canAttack h attacker target = false) :
    NPC.tryAttack h attacker target g = (false, g) := by
  cases hs : (h attacker).species <;>
    simp_all [NPC.canAttack, NPC.tryAttack, Squirrel.tryAttack, Werewolf.tryAttack,
      Druid.tryAttack]

theorem tryAttack_of_not_canAttack_witness :
    NPC.canAttack (heap2 wolf sq) 0 (some 1) = false ∧
    NPC.tryAttack (heap2 wolf sq) 0 (some 1) (Rng.ofList [5, 0]) = (false, Rng.ofList [5, 0]) ∧
    NPC.tryAttack (heap2 dru sq) 0 (some 1) (Rng.ofList [5, 0]) = (false, Rng.ofList [5, 0]) ∧
    NPC.tryAttack (heap2 sq wolf) 0 none (Rng.ofList [5, 0]) = (false, Rng.ofList [5, 0]) :=
  ⟨by decide,
    tryAttack_of_not_canAttack (heap2 wolf sq) 0 (some 1) (Rng.ofList [5, 0]) (by decide),
    tryAttack_of_not_canAttack (heap2 dru sq) 0 (some 1) (Rng.ofList [5, 0]) (by decide),
    tryAttack_of_not_canAttack (heap2 sq wolf) 0 none (Rng.ofList [5, 0]) (by decide)⟩

/-! ## Detection (C4) -/

theorem aliveTargets_foldl (cur : Option Ref) (h : Heap) (npcs : List (Option Ref))
    (init : List Ref) :
    npcs.foldl
        (fun acc target =>
          match target with
          | some t => if target != cur && NPC.isAlive h t then acc ++ [t] else acc
          | none => acc)
        init
      = init ++ npcs.filterMap fun target =>
          match target with
          | some t => if target != cur && NPC.isAlive h t then some t else none
          | none => none := by
  induction npcs generalizing init with
  | nil => simp
  | cons target rest ih =>
    rw [List.foldl_cons, ih]
    cases target with
    | none => simp
    | some t =>
      by_cases hc : (some t != cur && NPC.isAlive h t) = true
      · simp only [hc, List.filterMap_cons, if_true, List.append_assoc, List.singleton_append]
      · simp only [hc, List.filterMap_cons, Bool.false_eq_true, if_false]

theorem detect_foldl (cur : Option Ref) (h : Heap) (npc : Ref) (targets : List Ref)
    (q : BattleQueue) :
    targets.foldl
        (fun q target =>
          let distance := NPC.calculateDistance h npc (some target)
          if distance ≤ NPC.getAttackDistance h npc then
            if NPC.canAttack h npc (some target) then
              q.addTask { attacker := cur, defender := some target }
            else q
          else q)
        q
      = { q with tasks := q.tasks ++ targets.filterMap fun target =>
            if NPC.calculateDistance h npc (some target) ≤ NPC.getAttackDistance h npc ∧
                NPC.canAttack h npc (some target) = true then
              some { attacker := cur, defender := some target }
            else none } := by
  induction targets generalizing q with
  | nil => simp
  | cons target rest ih =>
    rw [List.foldl_cons, ih]
    by_cases hd : NPC.calculateDistance h npc (some target) ≤ NPC.getAttackDistance h npc
    · by_cases hc : NPC.canAttack h npc (some target) = true
      · simp [hd, hc, BattleQueue.addTask]
      · simp [hd, hc]
    · simp [hd]

/-- What `detectForNPC` appends, for a visitor built for the agent it scans. -/
theorem detectForNPC_eq (h : Heap) (npcs : List (Option Ref)) (a : Ref) (q : BattleQueue)
    (halive : NPC.isAlive h a = true) :
    DetectionVisitor.detectForNPC { npcs := npcs, currentNPC := some a } h a q
      = { q with tasks := q.tasks ++ specIntents h npcs a } := by
  simp only [DetectionVisitor.detectForNPC, DetectionVisitor.aliveTargets, halive,
    Bool.not_true, Bool.false_eq_true, if_false]
  rw [aliveTargets_foldl, detect_foldl, List.nil_append, List.filterMap_filterMap]
  congr 2
  unfold specIntents
  congr 1
  funext entry
  cases entry with
  | none => rfl
  | some b =>
    by_cases hb : b = a
    · simp [hb]
    · by_cases hl : NPC.isAlive h b = true
      · simp [hb, hl]
      · simp [hb, hl]

/-- C4: for a living Squirrel or Werewolf `a`, `detectBattles` appends to the
battle queue exactly the intents `(a, b)`, in population order, for the entries
`b` that are non-null, are not `a`, are alive, are within `a`'s attack range
(boundary included) and can be attacked by `a`; the tasks already queued and
the stop flag are unchanged. -/
theorem detectBattles_eq_specIntents (h : Heap) (npcs : List (Option Ref)) (a : Ref)
    (q : BattleQueue) (halive : NPC.isAlive h a = true)
    (hsp : (h a).species = .Squirrel ∨ (h a).species = .Werewolf) :
    DetectionVisitor.detectBattles { npcs := npcs, currentNPC := some a } h q
      = .ok { tasks := q.tasks ++ specIntents h npcs a, stopFlag := q.stopFlag } := by
  have hd := detectForNPC_eq h npcs a q halive
  rcases hsp with hs | hs <;>
    simp [DetectionVisitor.detectBattles, NPC.accept, hs, DetectionVisitor.visitSquirrel,
      DetectionVisitor.visitWerewolf, hd]

theorem detectBattles_eq_specIntents_witness :
    NPC.isAlive (heap2 sq wolf) 0 = true ∧
    ((heap2 sq wolf 0).species = .Squirrel ∨ (heap2 sq wolf 0).species = .Werewolf) ∧
    DetectionVisitor.detectBattles { npcs := [some 0, some 1], currentNPC := some 0 }
        (heap2 sq wolf) {}
      = .ok { tasks := [{ attacker := some 0, defender := some 1 }], stopFlag := false } ∧
    DetectionVisitor.detectBattles { npcs := [some 0, some 1], currentNPC := some 0 }
        (heap2 sq (NPC.new .Werewolf "Wolf" 200 200)) {}
      = .ok {} ∧
    DetectionVisitor.detectBattles { npcs := [some 0, some 1], currentNPC := some 0 }
        (heap2 sq { wolf with alive := false }) {}
      = .ok {} ∧
    DetectionVisitor.detectBattles { npcs := [some 0, some 1], currentNPC := some 0 }
        (heap2 (NPC.new .Squirrel "Sq" 0 0) (NPC.new .Werewolf "Wolf" 100 100)) {}
      = .ok {} := by
  refine ⟨by decide, by decide, ?_, ?_, ?_, ?_⟩
  · rw [detectBattles_eq_specIntents _ _ _ _ (by decide) (by decide)]
    have : specIntents (heap2 sq wolf) [some 0, some 1] 0
        = [{ attacker := some 0, defender := some 1 }] := by decide!
    rw [this]; rfl
  · rw [detectBattles_eq_specIntents _ _ _ _ (by decide) (by decide)]
    have : specIntents (heap2 sq (NPC.new .Werewolf "Wolf" 200 200)) [some 0, some 1] 0
        = [] := by decide!
    rw [this]; rfl
  · rw [detectBattles_eq_specIntents _ _ _ _ (by decide) (by decide)]
    have : specIntents (heap2 sq { wolf with alive := false }) [some 0, some 1] 0
        = [] := by decide!
    rw [this]; rfl
  · rw [detectBattles_eq_specIntents _ _ _ _ (by decide) (by decide)]
    have : specIntents (heap2 (NPC.new .Squirrel "Sq" 0 0) (NPC.new .Werewolf "Wolf" 100 100))
        [some 0, some 1] 0 = [] := by decide!
    rw [this]; rfl

/-! ## Resolution (C5, C6) -/

theorem notify_eq (s : BattleSubject) (event : String) (log : Updates) :
    s.notify event log = log ++ s.observers.map fun observer => (observer, event) := by
  unfold BattleSubject.notify
  generalize s.observers = obs
  induction obs generalizing log with
  | nil => simp
  | cons o rest ih => simp [ih]

theorem canAttack_ne (h : Heap) (a b : Ref) (hcan : NPC.canAttack h a (some b) = true) :
    a ≠ b := by
  intro hab
  subst hab
  cases hs : (h a).species <;>
    simp [NPC.canAttack, Squirrel.canAttack, Werewolf.canAttack, Druid.canAttack,
      NPC.getType, hs] at hcan

/-- C5: an intent with non-null attacker and defender is discarded when the
attacker is dead, or the defender is dead, or the recomputed distance exceeds
the attacker's range, or `canAttack` is false: `processBattle` returns the
engine as it was, so no agent changes, the generator is untouched, and nothing
is printed or delivered to an observer. -/
theorem processBattle_discards (e : GameEngine) (attacker defender : Ref)
    (hinvalid : NPC.isAlive e.heap attacker = false ∨ NPC.isAlive e.heap defender = false ∨
      NPC.calculateDistance e.heap attacker (some defender)
        > NPC.getAttackDistance e.heap attacker ∨
      NPC.canAttack e.heap attacker (some defender) = false) :
    e.processBattle { attacker := some attacker, defender := some defender } = .ok e := by
  unfold GameEngine.processBattle
  by_cases hA : NPC.isAlive e.heap attacker = true
  · by_cases hD : NPC.isAlive e.heap defender = true
    · by_cases hdist : NPC.calculateDistance e.heap attacker (some defender)
          > NPC.getAttackDistance e.heap attacker
      · simp [hA, hD, hdist]
      · have hcan : NPC.canAttack e.heap attacker (some defender) = false := by
          rcases hinvalid with h1 | h1 | h1 | h1
          · rw [hA] at h1; cases h1
          · rw [hD] at h1; cases h1
          · exact absurd h1 hdist
          · exact h1
        simp [hA, hD, hdist, hcan]
    · simp [hA, hD]
  · simp [hA]

theorem processBattle_discards_witness :
    NPC.canAttack (engine2 wolf sq (Rng.ofList [5, 0])).heap 0 (some 1) = false ∧
    (engine2 wolf sq (Rng.ofList [5, 0])).processBattle
        { attacker := some 0, defender := some 1 }
      = .ok (engine2 wolf sq (Rng.ofList [5, 0])) :=
  ⟨by decide, processBattle_discards _ 0 1 (Or.inr (Or.inr (Or.inr (by decide))))⟩

theorem tryAttack_of_canAttack (h : Heap) (attacker : Ref) (target : Option Ref) (g : Rng)
    (hcan : NPC.canAttack h attacker target = true) :
    NPC.tryAttack h attacker target g
      = (decide ((NPC.rollDice g).1 > (NPC.rollDice (NPC.rollDice g).2).1),
          (NPC.rollDice (NPC.rollDice g).2).2) := by
  cases hs : (h attacker).species <;>
    simp_all [NPC.canAttack, NPC.tryAttack, Squirrel.tryAttack, Werewolf.tryAttack,
      Druid.canAttack]

theorem killMessage_setAlive (h : Heap) (r attacker defender : Ref) (status : Bool) :
    GameEngine.killMessage (NPC.setAlive h r status) attacker defender
      = GameEngine.killMessage h attacker defender := by
  have hn : ∀ x, NPC.getName (NPC.setAlive h r status) x = NPC.getName h x := by
    intro x
    by_cases hx : x = r <;> simp [NPC.getName, NPC.setAlive, Function.update, hx]
  have ht : ∀ x, NPC.getType (NPC.setAlive h r status) x = NPC.getType h x := by
    intro x
    by_cases hx : x = r <;> simp [NPC.getType, NPC.setAlive, Function.update, hx]
  simp only [GameEngine.killMessage, hn, ht]

/-- The engine after `processBattle` on an intent that passes re-validation. -/
theorem processBattle_of_valid (e : GameEngine) (attacker defender : Ref)
    (hA : NPC.isAlive e.heap attacker = true) (hD : NPC.isAlive e.heap defender = true)
    (hdist : NPC.calculateDistance e.heap attacker (some defender)
      ≤ NPC.getAttackDistance e.heap attacker)
    (hcan : NPC.canAttack e.heap attacker (some defender) = true) :
    e.processBattle { attacker := some attacker, defender := some defender }
      = .ok
        (if (NPC.rollDice e.rng).1 > (NPC.rollDice (NPC.rollDice e.rng).2).1 then
          { e with
            heap := NPC.setAlive e.heap defender false
            rng := (NPC.rollDice (NPC.rollDice e.rng).2).2
            cout := e.cout ++ [GameEngine.killMessage e.heap attacker defender]
            updates := e.updates ++ e.battleLogger.observers.map fun observer =>
              (observer, GameEngine.killMessage e.heap attacker defender) }
        else { e with rng := (NPC.rollDice (NPC.rollDice e.rng).2).2 }) := by
  have hnd : ¬ NPC.calculateDistance e.heap attacker (some defender)
      > NPC.getAttackDistance e.heap attacker := (Distance.not_gt_iff _ _).mpr hdist
  have htry := tryAttack_of_canAttack e.heap attacker (some defender) e.rng hcan
  by_cases hgt : (NPC.rollDice e.rng).1 > (NPC.rollDice (NPC.rollDice e.rng).2).1
  · simp only [GameEngine.processBattle, hA, hD, hnd, hcan, htry, hgt, decide_True,
      Bool.not_true, Bool.false_eq_true, if_false, if_true, GameEngine.safePrint,
      BattleLogger.logBattleEvent, notify_eq, killMessage_setAlive]
  · simp only [GameEngine.processBattle, hA, hD, hnd, hcan, htry, hgt, decide_False,
      Bool.not_true, Bool.false_eq_true, if_false]

/-- C6: for an intent that passes re-validation, with dice `a` for the attacker
and `d` for the defender, `processBattle` returns; if `a > d` the defender's
alive flag becomes false, every other field of every agent (the attacker's
alive flag and both positions among them) is unchanged, and each attached
observer receives exactly one update, carrying the kill message; if `a ≤ d` no
agent changes and nothing is printed or delivered. -/
theorem processBattle_resolves (e : GameEngine) (attacker defender : Ref) (a d : Nat)
    (hA : NPC.isAlive e.heap attacker = true) (hD : NPC.isAlive e.heap defender = true)
    (hdist : NPC.calculateDistance e.heap attacker (some defender)
      ≤ NPC.getAttackDistance e.heap attacker)
    (hcan : NPC.canAttack e.heap attacker (some defender) = true)
    (ha : (NPC.rollDice e.rng).1 = a) (hd : (NPC.rollDice (NPC.rollDice e.rng).2).1 = d) :
    ∃ e1, e.processBattle { attacker := some attacker, defender := some defender } = .ok e1 ∧
      (a > d →
        (e1.heap defender).alive = false ∧
        (e1.heap attacker).alive = (e.heap attacker).alive ∧
        ((e1.heap attacker).x = (e.heap attacker).x ∧
          (e1.heap attacker).y = (e.heap attacker).y) ∧
        ((e1.heap defender).x = (e.heap defender).x ∧
          (e1.heap defender).y = (e.heap defender).y) ∧
        (∀ r, r ≠ defender → e1.heap r = e.heap r) ∧
        e1.updates = e.updates ++ e.battleLogger.observers.map fun observer =>
          (observer, GameEngine.killMessage e.heap attacker defender)) ∧
      (a ≤ d → e1.heap = e.heap ∧ e1.updates = e.updates ∧ e1.cout = e.cout) := by
  have hne : attacker ≠ defender := canAttack_ne e.heap attacker defender hcan
  refine ⟨_, processBattle_of_valid e attacker defender hA hD hdist hcan, ?_, ?_⟩
  · intro hgt
    rw [← ha, ← hd] at hgt
    rw [if_pos hgt]
    refine ⟨?_, ?_, ⟨?_, ?_⟩, ⟨?_, ?_⟩, ?_, rfl⟩
    · simp [NPC.setAlive]
    · simp [NPC.setAlive, Function.update, hne]
    · simp [NPC.setAlive, Function.update, hne]
    · simp [NPC.setAlive, Function.update, hne]
    · simp [NPC.setAlive]
    · simp [NPC.setAlive]
    · intro r hr
      simp [NPC.setAlive, Function.update, hr]
  · intro hle
    rw [← ha, ← hd] at hle
    rw [if_neg (Nat.not_lt.mpr hle)]
    exact ⟨rfl, rfl, rfl⟩

theorem processBattle_resolves_witness :
    ∃ e1, (engine2 sq wolf (Rng.ofList [2, 1])).processBattle
        { attacker := some 0, defender := some 1 } = .ok e1 ∧
      (e1.heap 1).alive = false ∧ (e1.heap 0).alive = true ∧
      e1.updates = [(7, "Sq (Squirrel) killed Wolf (Werewolf)\n"),
        (8, "Sq (Squirrel) killed Wolf (Werewolf)\n")] := by
  obtain ⟨e1, h1, hkill, _⟩ := processBattle_resolves (engine2 sq wolf (Rng.ofList [2, 1]))
    0 1 3 2 (by decide) (by decide) (by decide!) (by decide) (by decide) (by decide)
  obtain ⟨hdead, hatt, _, _, _, hupd⟩ := hkill (by decide)
  refine ⟨e1, h1, hdead, ?_, ?_⟩
  · rw [hatt]; decide
  · rw [hupd]; decide

/-! ## The battle queue (C7 to C9) -/

theorem addTasks_tasks (q : BattleQueue) (ts : List BattleTask) :
    q.addTasks ts = { q with tasks := q.tasks ++ ts } := by
  unfold BattleQueue.addTasks
  induction ts generalizing q with
  | nil => simp
  | cons t rest ih => simp [ih, BattleQueue.addTask]

theorem tryGetTask_cons (t : BattleTask) (rest : List BattleTask) (stopFlag : Bool)
    (task : BattleTask) :
    BattleQueue.tryGetTask { tasks := t :: rest, stopFlag := stopFlag } task
      = (true, t, { tasks := rest, stopFlag := stopFlag }) := by
  simp [BattleQueue.tryGetTask]

theorem tryGetTask_nil (stopFlag : Bool) (task : BattleTask) :
    BattleQueue.tryGetTask { tasks := [], stopFlag := stopFlag } task
      = (false, task, { tasks := [], stopFlag := stopFlag }) := by
  cases stopFlag <;> simp [BattleQueue.tryGetTask]

theorem tryGetTasks_buffered (ts : List BattleTask) (stopFlag : Bool) (extra : Nat) :
    BattleQueue.tryGetTasks (ts.length + extra) { tasks := ts, stopFlag := stopFlag }
      = (ts.map (fun t => (true, t)) ++ List.replicate extra (false, ({} : BattleTask)),
          { tasks := [], stopFlag := stopFlag }) := by
  induction ts with
  | nil =>
    induction extra with
    | zero => simp [BattleQueue.tryGetTasks]
    | succ n ih =>
      simp only [List.length_nil, Nat.zero_add] at ih
      simp [BattleQueue.tryGetTasks, tryGetTask_nil, ih, List.replicate_succ]
  | cons t rest ih =>
    have hlen : (t :: rest).length + extra = (rest.length + extra) + 1 := by
      simp only [List.length_cons]; omega
    rw [hlen]
    simp [BattleQueue.tryGetTasks, tryGetTask_cons, ih]

/-- C7: after `addTask` for `t1..tn` on an empty queue, the next `n` calls of
`tryGetTask` all return true and yield `t1..tn` in that order, attacker and
defender as enqueued; the queue is then empty again. -/
theorem addTasks_tryGetTasks_fifo (ts : List BattleTask) (stopFlag : Bool) :
    BattleQueue.tryGetTasks ts.length
        (BattleQueue.addTasks { tasks := [], stopFlag := stopFlag } ts)
      = (ts.map (fun t => (true, t)), { tasks := [], stopFlag := stopFlag }) := by
  have h := tryGetTasks_buffered ts stopFlag 0
  simp only [Nat.add_zero, List.replicate_zero, List.append_nil] at h
  rw [addTasks_tasks]
  simpa using h

/-- C8: after `stop()` on a queue holding `K` buffered tasks, the next `K`
calls of `tryGetTask` return true with the buffered tasks in FIFO order and
call `K + 1` returns false, leaving the caller's task as it was; the queue is
then empty, still stopped, and `shouldStop()` is true. With `K = 0` the first
call after `stop()` returns false and `shouldStop()` is true. -/
theorem stop_then_drain (q : BattleQueue) :
    BattleQueue.tryGetTasks (q.tasks.length + 1) q.stop
      = (q.tasks.map (fun t => (true, t)) ++ [(false, ({} : BattleTask))], { tasks := [], stopFlag := true }) ∧
    (BattleQueue.tryGetTasks (q.tasks.length + 1) q.stop).2.shouldStop = true ∧
    (∀ (stopFlag : Bool) (task : BattleTask),
      ((BattleQueue.stop { tasks := [], stopFlag := stopFlag }).tryGetTask task).1 = false ∧
      (BattleQueue.stop { tasks := [], stopFlag := stopFlag }).shouldStop = true) := by
  have h := tryGetTasks_buffered q.tasks true 1
  have hs : q.stop = { tasks := q.tasks, stopFlag := true } := rfl
  refine ⟨?_, ?_, ?_⟩
  · rw [hs, h]; rfl
  · rw [hs, h]; rfl
  · intro stopFlag task
    exact ⟨by simp [BattleQueue.stop, tryGetTask_nil], rfl⟩

theorem dequeueResults_stopped_empty (ops : List QueueOp)
    (hno : ∀ op ∈ ops, op.isAddTask = false) :
    ∀ r ∈ BattleQueue.dequeueResults { tasks := [], stopFlag := true } ops, r = false := by
  induction ops with
  | nil => simp [BattleQueue.dequeueResults]
  | cons op rest ih =>
    have hrest := ih fun o ho => hno o (List.mem_cons_of_mem _ ho)
    cases op with
    | addTask task => exact absurd (hno _ (List.mem_cons_self _ _)) (by simp [QueueOp.isAddTask])
    | tryGetTask =>
      simpa [BattleQueue.dequeueResults, BattleQueue.step, tryGetTask_nil] using hrest
    | stop => simpa [BattleQueue.dequeueResults, BattleQueue.step, BattleQueue.stop] using hrest
    | isEmpty => simpa [BattleQueue.dequeueResults, BattleQueue.step] using hrest
    | size => simpa [BattleQueue.dequeueResults, BattleQueue.step] using hrest
    | shouldStop => simpa [BattleQueue.dequeueResults, BattleQueue.step] using hrest

/-- C9, as the code has it: once a queue is stopped and empty, no later
`tryGetTask` succeeds along any sequence of `tryGetTask`, `stop`, `isEmpty`,
`size` and `shouldStop` calls (no `addTask`); a task passed to `addTask` after
the stop is buffered all the same and the next `tryGetTask` returns it. -/
theorem stopped_empty_no_dequeue (q : BattleQueue) (ops : List QueueOp)
    (hstop : q.stopFlag = true) (hempty : q.isEmpty = true)
    (hno : ∀ op ∈ ops, op.isAddTask = false) :
    (∀ r ∈ q.dequeueResults ops, r = false) ∧
    (∀ task caller, (q.addTask task).tryGetTask caller = (true, task, q)) := by
  obtain ⟨tasks, stopFlag⟩ := q
  simp only [BattleQueue.isEmpty, List.isEmpty_iff] at hempty
  simp only at hstop
  subst hstop hempty
  refine ⟨dequeueResults_stopped_empty ops hno, ?_⟩
  intro task caller
  simp [BattleQueue.addTask, BattleQueue.tryGetTask]

theorem stopped_empty_no_dequeue_witness :
    (BattleQueue.stop {}).stopFlag = true ∧ (BattleQueue.stop {}).isEmpty = true ∧
    (∀ r ∈ BattleQueue.dequeueResults (BattleQueue.stop {})
      [.tryGetTask, .stop, .isEmpty, .tryGetTask, .size, .shouldStop, .tryGetTask],
      r = false) :=
  ⟨rfl, rfl, (stopped_empty_no_dequeue (BattleQueue.stop {})
    [.tryGetTask, .stop, .isEmpty, .tryGetTask, .size, .shouldStop, .tryGetTask]
    rfl rfl (by decide)).1⟩

/-- C9 fails as stated: on a new queue, after `stop()` and a `tryGetTask` that
found it empty (so `shouldStop()` is true), `addTask` followed by `tryGetTask`
succeeds. -/
theorem stopped_empty_dequeue_after_addTask :
    (BattleQueue.stop {}).shouldStop = true ∧
    BattleQueue.dequeueResults (BattleQueue.stop {})
      [.shouldStop, .tryGetTask, .addTask { attacker := some 0, defender := some 1 },
        .tryGetTask]
      = [false, true] := by
  decide

/-! ## The resolver loop (C10) -/

/-- `processBattle` leaves the queue, the running flag, the population and the
logger as they were. -/
theorem processBattle_frame (e e1 : GameEngine) (task : BattleTask)
    (h : e.processBattle task = .ok e1) :
    e1.battleQueue = e.battleQueue ∧ e1.gameRunning = e.gameRunning ∧ e1.npcs = e.npcs ∧
      e1.battleLogger = e.battleLogger := by
  simp only [GameEngine.processBattle] at h
  repeat' split at h
  all_goals first
    | (cases h; done)
    | (cases h; exact ⟨rfl, rfl, rfl, rfl⟩)

/-- On a task with non-null attacker and defender `processBattle` returns. -/
theorem processBattle_ok (e : GameEngine) (attacker defender : Ref) :
    ∃ e1, e.processBattle { attacker := some attacker, defender := some defender } = .ok e1 := by
  simp only [GameEngine.processBattle]
  repeat' split
  all_goals exact ⟨_, rfl⟩

/-- One pass of the resolver loop over a non-empty queue whose front task is
resolved without fault. -/
theorem battleWorker_pass (fuel : Nat) (e e2 : GameEngine) (t : BattleTask)
    (rest : List BattleTask)
    (hq : e.battleQueue.tasks = t :: rest)
    (h2 : GameEngine.processBattle
      { e with battleQueue := { tasks := rest, stopFlag := e.battleQueue.stopFlag } } t
        = .ok e2) :
    e.battleWorker (fuel + 1)
      = match e2.battleWorker fuel with
        | .error f => .error f
        | .ok (e3, handled) => .ok (e3, t :: handled) := by
  obtain ⟨npcs, ⟨tasks, stopFlag⟩, logger, running, elapsed, heap, rng, cout, updates⟩ := e
  simp only at hq
  subst hq
  simp only at h2
  rw [GameEngine.battleWorker]
  simp only [BattleQueue.isEmpty, List.isEmpty_cons, Bool.not_false, Bool.or_true, if_true,
    tryGetTask_cons, h2]

/-- The resolver loop ends once the running flag is down and the queue is
empty. -/
theorem battleWorker_exit (fuel : Nat) (e : GameEngine) (hrun : e.gameRunning = false)
    (hq : e.battleQueue.tasks = []) :
    e.battleWorker (fuel + 1) = .ok (e.safePrint "Battle thread stopped.\n", []) := by
  rw [GameEngine.battleWorker]
  simp [BattleQueue.isEmpty, hrun, hq]

theorem battleWorker_drain_aux (ts : List BattleTask) :
    ∀ (e : GameEngine) (fuel : Nat), e.gameRunning = false → e.battleQueue.tasks = ts →
      (∀ t ∈ ts, t.attacker.isSome = true ∧ t.defender.isSome = true) →
      (ts.length < fuel →
        ∃ e1, e.battleWorker fuel = .ok (e1, ts) ∧
          e1.battleQueue = { tasks := [], stopFlag := e.battleQueue.stopFlag } ∧
          e1.gameRunning = false) ∧
      e.battleWorker ts.length = .error .outOfFuel := by
  induction ts with
  | nil =>
    intro e fuel hrun hq _
    refine ⟨fun hfuel => ?_, by simp [GameEngine.battleWorker]⟩
    obtain ⟨f, rfl⟩ : ∃ f, fuel = f + 1 := ⟨fuel - 1, by simp at hfuel; omega⟩
    refine ⟨_, battleWorker_exit f e hrun hq, ?_, hrun⟩
    obtain ⟨npcs, ⟨tasks, stopFlag⟩, logger, running, elapsed, heap, rng, cout, updates⟩ := e
    simp only at hq
    subst hq
    rfl
  | cons t rest ih =>
    intro e fuel hrun hq hnn
    obtain ⟨a, ha⟩ := Option.isSome_iff_exists.mp (hnn t (List.mem_cons_self _ _)).1
    obtain ⟨d, hd⟩ := Option.isSome_iff_exists.mp (hnn t (List.mem_cons_self _ _)).2
    have ht : t = { attacker := some a, defender := some d } := by
      cases t; simp_all
    obtain ⟨e2, h2⟩ := processBattle_ok
      { e with battleQueue := { tasks := rest, stopFlag := e.battleQueue.stopFlag } } a d
    rw [← ht] at h2
    obtain ⟨hfq, hfr, _, _⟩ := processBattle_frame _ _ _ h2
    have hrun2 : e2.gameRunning = false := by rw [hfr]; exact hrun
    have hq2 : e2.battleQueue.tasks = rest := by rw [hfq]
    have hih := ih e2
    have hstop2 : e2.battleQueue.stopFlag = e.battleQueue.stopFlag := by rw [hfq]
    refine ⟨fun hfuel => ?_, ?_⟩
    · obtain ⟨f, rfl⟩ : ∃ f, fuel = f + 1 := ⟨fuel - 1, by simp at hfuel; omega⟩
      obtain ⟨e3, h3, hq3, hr3⟩ := (hih f hrun2 hq2
        (fun x hx => hnn x (List.mem_cons_of_mem _ hx))).1
        (by simp only [List.length_cons] at hfuel; omega)
      refine ⟨e3, ?_, ?_, hr3⟩
      · rw [battleWorker_pass f e e2 t rest hq h2, h3]
      · rw [hq3, hstop2]
    · have hout := (hih 0 hrun2 hq2 (fun x hx => hnn x (List.mem_cons_of_mem _ hx))).2
      rw [List.length_cons, battleWorker_pass rest.length e e2 t rest hq h2, hout]

/-- `processBattle` neither reads nor writes the queue: on an engine with
another queue it does the same, and leaves that queue. -/
theorem processBattle_setQueue (e : GameEngine) (q : BattleQueue) (task : BattleTask) :
    GameEngine.processBattle { e with battleQueue := q } task
      = match e.processBattle task with
        | .error f => .error f
        | .ok e1 => .ok { e1 with battleQueue := q } := by
  simp only [GameEngine.processBattle, GameEngine.safePrint]
  repeat' split
  all_goals first
    | rfl
    | (simp_all; done)
    | (simp_all; subst_vars; exact ⟨rfl, rfl, rfl, rfl, rfl, rfl, rfl, rfl⟩)

/-- An intent whose attacker is dead is discarded before the defender is looked
at. -/
theorem processBattle_attacker_dead (e : GameEngine) (attacker : Ref) (defender : Option Ref)
    (hdead : NPC.isAlive e.heap attacker = false) :
    e.processBattle { attacker := some attacker, defender := defender } = .ok e := by
  simp [GameEngine.processBattle, hdead]

/-- Resolving a list of intents does not depend on the queue either. -/
theorem processAll_setQueue (ts : List BattleTask) :
    ∀ (e : GameEngine) (q : BattleQueue),
      GameEngine.processAll ts { e with battleQueue := q }
        = match e.processAll ts with
          | .error f => .error f
          | .ok e1 => .ok { e1 with battleQueue := q } := by
  induction ts with
  | nil => intro e q; rfl
  | cons t rest ih =>
    intro e q
    rw [GameEngine.processAll, GameEngine.processAll, processBattle_setQueue]
    cases e.processBattle t with
    | error f => rfl
    | ok e1 => exact ih e1 q

/-- The engine the resolver loop ends with: the buffered intents resolved in
order, the queue emptied, the farewell printed. -/
theorem battleWorker_result_aux (ts : List BattleTask) :
    ∀ (e : GameEngine) (fuel : Nat), e.gameRunning = false → e.battleQueue.tasks = ts →
      (∀ t ∈ ts, t.attacker.isSome = true ∧ t.defender.isSome = true) →
      ts.length < fuel →
      ∃ e0, e.processAll ts = .ok e0 ∧
        e.battleWorker fuel
          = .ok (GameEngine.safePrint
              { e0 with battleQueue := { tasks := [], stopFlag := e.battleQueue.stopFlag } }
              "Battle thread stopped.\n", ts) := by
  induction ts with
  | nil =>
    intro e fuel hrun hq _ hfuel
    obtain ⟨f, rfl⟩ : ∃ f, fuel = f + 1 := ⟨fuel - 1, by simp at hfuel; omega⟩
    refine ⟨e, rfl, ?_⟩
    rw [battleWorker_exit f e hrun hq]
    obtain ⟨npcs, ⟨tasks, stopFlag⟩, logger, running, elapsed, heap, rng, cout, updates⟩ := e
    simp only at hq
    subst hq
    rfl
  | cons t rest ih =>
    intro e fuel hrun hq hnn hfuel
    obtain ⟨f, rfl⟩ : ∃ f, fuel = f + 1 := ⟨fuel - 1, by simp at hfuel; omega⟩
    obtain ⟨a, ha⟩ := Option.isSome_iff_exists.mp (hnn t (List.mem_cons_self _ _)).1
    obtain ⟨d, hd⟩ := Option.isSome_iff_exists.mp (hnn t (List.mem_cons_self _ _)).2
    have ht : t = { attacker := some a, defender := some d } := by
      cases t; simp_all
    obtain ⟨e2, h2⟩ := processBattle_ok
      { e with battleQueue := { tasks := rest, stopFlag := e.battleQueue.stopFlag } } a d
    rw [← ht] at h2
    obtain ⟨hfq, hfr, _, _⟩ := processBattle_frame _ _ _ h2
    have hrun2 : e2.gameRunning = false := by rw [hfr]; exact hrun
    have hq2 : e2.battleQueue.tasks = rest := by rw [hfq]
    have hstop2 : e2.battleQueue.stopFlag = e.battleQueue.stopFlag := by rw [hfq]
    obtain ⟨e0, h0, hw⟩ := ih e2 f hrun2 hq2 (fun x hx => hnn x (List.mem_cons_of_mem _ hx))
      (by simp only [List.length_cons] at hfuel; omega)
    rw [processBattle_setQueue] at h2
    cases hp : e.processBattle t with
    | error f2 => rw [hp] at h2; cases h2
    | ok e2a =>
      rw [hp] at h2
      cases h2
      rw [processAll_setQueue] at h0
      cases hpa : e2a.processAll rest with
      | error f3 => rw [hpa] at h0; cases h0
      | ok e0a =>
        rw [hpa] at h0
        cases h0
        refine ⟨e0a, ?_, ?_⟩
        · rw [GameEngine.processAll, hp]
          exact hpa
        · rw [battleWorker_pass f e _ t rest hq (by rw [processBattle_setQueue, hp]), hw]

/-- C10: with the running flag down, the queue stopped and `K` buffered intents
(each with non-null attacker and defender), `battleWorker` returns with any
fuel above `K`, and not with `K`: it makes exactly `K` passes, each a successful
dequeue handing the front intent to `processBattle`. The engine it ends with is
the one that resolving the buffered intents with `processBattle`, once each in
enqueue order, leaves (agents, generator, output and observer calls included),
with the queue empty and stopped and the farewell printed. `processBattle`
never changes the queue. -/
theorem battleWorker_drains (e : GameEngine) (fuel : Nat)
    (hrun : e.gameRunning = false) (hstop : e.battleQueue.stopFlag = true)
    (hnonnull : ∀ t ∈ e.battleQueue.tasks, t.attacker.isSome = true ∧ t.defender.isSome = true)
    (hfuel : e.battleQueue.tasks.length < fuel) :
    (∃ e0 e1, e.processAll e.battleQueue.tasks = .ok e0 ∧
      e.battleWorker fuel = .ok (e1, e.battleQueue.tasks) ∧
      e1 = GameEngine.safePrint { e0 with battleQueue := { tasks := [], stopFlag := true } }
        "Battle thread stopped.\n" ∧
      e1.battleQueue = { tasks := [], stopFlag := true } ∧ e1.gameRunning = false) ∧
    e.battleWorker e.battleQueue.tasks.length = .error .outOfFuel ∧
    (∀ (e0 e2 : GameEngine) (task : BattleTask),
      e0.processBattle task = .ok e2 → e2.battleQueue = e0.battleQueue) := by
  obtain ⟨hdrain, hout⟩ := battleWorker_drain_aux e.battleQueue.tasks e fuel hrun rfl hnonnull
  refine ⟨?_, hout, fun e0 e2 task h => (processBattle_frame e0 e2 task h).1⟩
  obtain ⟨e1, h1, _, hr1⟩ := hdrain hfuel
  obtain ⟨e0, h0, hw⟩ := battleWorker_result_aux e.battleQueue.tasks e fuel hrun rfl hnonnull
    hfuel
  rw [hstop] at hw
  rw [hw] at h1
  cases h1
  exact ⟨e0, _, h0, hw, rfl, rfl, hr1⟩

theorem battleWorker_drains_witness :
    engineStopping.gameRunning = false ∧ engineStopping.battleQueue.stopFlag = true ∧
    ∃ e1, engineStopping.battleWorker 3
        = .ok (e1, [{ attacker := some 0, defender := some 1 },
            { attacker := some 1, defender := some 0 }]) ∧
      e1.battleQueue = { tasks := [], stopFlag := true } ∧ e1.gameRunning = false ∧
      NPC.isAlive e1.heap 0 = true ∧ NPC.isAlive e1.heap 1 = false ∧
      e1.updates = [(7, "Sq (Squirrel) killed Wolf (Werewolf)\n"),
        (8, "Sq (Squirrel) killed Wolf (Werewolf)\n")] ∧
      e1.cout = ["Sq (Squirrel) killed Wolf (Werewolf)\n", "Battle thread stopped.\n"] := by
  obtain ⟨⟨e0, e1, h0, hw, he1, hq, hr⟩, _, _⟩ :=
    battleWorker_drains engineStopping 3 rfl rfl (by decide) (by decide)
  have hv := processBattle_of_valid engineStopping 0 1 (by decide) (by decide) (by decide!)
    (by decide)
  rw [if_pos (by decide)] at hv
  change GameEngine.processAll [{ attacker := some 0, defender := some 1 },
    { attacker := some 1, defender := some 0 }] engineStopping = .ok e0 at h0
  rw [GameEngine.processAll, hv] at h0
  simp only [GameEngine.processAll] at h0
  rw [processBattle_attacker_dead _ 1 (some 0) (by decide)] at h0
  simp only [Except.ok.injEq] at h0
  subst h0
  subst he1
  exact ⟨rfl, rfl, _, hw, hq, hr, by decide, by decide, by decide, by decide⟩

/-! ## The alive flag and the position (C11 to C13) -/

/-- `move` on a dead agent returns at once. -/
theorem move_of_dead (lib : MoveLib) (h : Heap) (self : Ref) (minX maxX minY maxY : ℚ)
    (g : Rng) (hdead : NPC.isAlive h self = false) :
    NPC.move lib h self minX maxX minY maxY g = (h, g) := by
  simp [NPC.move, hdead]

/-- `move` on a living agent stores some target position, clamped on each axis
first from below and then from above. -/
theorem move_of_alive (lib : MoveLib) (h : Heap) (self : Ref) (minX maxX minY maxY : ℚ)
    (g : Rng) (halive : NPC.isAlive h self = true) :
    ∃ (newX newY : ℚ) (g2 : Rng),
      NPC.move lib h self minX maxX minY maxY g
        = (Function.update h self
            { h self with
              x := if (if newX < minX then minX else newX) > maxX then maxX
                   else (if newX < minX then minX else newX)
              y := if (if newY < minY then minY else newY) > maxY then maxY
                   else (if newY < minY then minY else newY) }, g2) := by
  refine ⟨(h self).x
      + (if lib.sqrt ((lib.dirDist g).1 * (lib.dirDist g).1
            + (lib.dirDist (lib.dirDist g).2).1 * (lib.dirDist (lib.dirDist g).2).1) > 0
          then (lib.dirDist g).1 / lib.sqrt ((lib.dirDist g).1 * (lib.dirDist g).1
            + (lib.dirDist (lib.dirDist g).2).1 * (lib.dirDist (lib.dirDist g).2).1)
          else (lib.dirDist g).1) * NPC.getMoveDistance h self,
    (h self).y
      + (if lib.sqrt ((lib.dirDist g).1 * (lib.dirDist g).1
            + (lib.dirDist (lib.dirDist g).2).1 * (lib.dirDist (lib.dirDist g).2).1) > 0
          then (lib.dirDist (lib.dirDist g).2).1 / lib.sqrt ((lib.dirDist g).1 * (lib.dirDist g).1
            + (lib.dirDist (lib.dirDist g).2).1 * (lib.dirDist (lib.dirDist g).2).1)
          else (lib.dirDist (lib.dirDist g).2).1) * NPC.getMoveDistance h self,
    (lib.dirDist (lib.dirDist g).2).2, ?_⟩
  rw [NPC.move, halive]
  rfl

/-- `move` writes no alive flag. -/
theorem move_alive (lib : MoveLib) (h : Heap) (self : Ref) (minX maxX minY maxY : ℚ)
    (g : Rng) (r : Ref) :
    NPC.isAlive (NPC.move lib h self minX maxX minY maxY g).1 r = NPC.isAlive h r := by
  by_cases ha : NPC.isAlive h self = true
  · obtain ⟨newX, newY, g2, hm⟩ := move_of_alive lib h self minX maxX minY maxY g ha
    rw [hm]
    by_cases hr : r = self
    · subst hr
      simp [NPC.isAlive, Function.update]
    · simp [NPC.isAlive, Function.update, hr]
  · rw [move_of_dead lib h self minX maxX minY maxY g (by simpa using ha)]

/-- Clamping from below and then from above lands between the bounds. -/
theorem clamp_bounds (v lo hi : ℚ) (hle : lo ≤ hi) :
    lo ≤ (if (if v < lo then lo else v) > hi then hi else (if v < lo then lo else v)) ∧
    (if (if v < lo then lo else v) > hi then hi else (if v < lo then lo else v)) ≤ hi := by
  split_ifs with h1 h2 h3 <;> constructor <;> linarith

/-- The position of a living agent after `move` lies between the bounds given,
whenever each lower bound is at most the upper one. -/
theorem move_bounds (lib : MoveLib) (h : Heap) (self : Ref) (minX maxX minY maxY : ℚ)
    (g : Rng) (halive : NPC.isAlive h self = true) (hx : minX ≤ maxX) (hy : minY ≤ maxY) :
    (minX ≤ NPC.getX (NPC.move lib h self minX maxX minY maxY g).1 self ∧
      NPC.getX (NPC.move lib h self minX maxX minY maxY g).1 self ≤ maxX) ∧
    (minY ≤ NPC.getY (NPC.move lib h self minX maxX minY maxY g).1 self ∧
      NPC.getY (NPC.move lib h self minX maxX minY maxY g).1 self ≤ maxY) := by
  obtain ⟨newX, newY, g2, hm⟩ := move_of_alive lib h self minX maxX minY maxY g halive
  rw [hm]
  simp only [NPC.getX, NPC.getY, Function.update_same]
  exact ⟨clamp_bounds newX minX maxX hx, clamp_bounds newY minY maxY hy⟩

/-- `setPosition` writes no alive flag. -/
theorem setPosition_alive (h : Heap) (self : Ref) (newX newY : ℚ) (r : Ref) :
    NPC.isAlive (NPC.setPosition h self newX newY) r = NPC.isAlive h r := by
  by_cases hr : r = self
  · subst hr
    simp [NPC.setPosition, NPC.isAlive, Function.update]
  · simp [NPC.setPosition, NPC.isAlive, Function.update, hr]

/-- `setAlive` sets the flag of its agent to `status` and no other flag. -/
theorem setAlive_alive (h : Heap) (self : Ref) (status : Bool) (r : Ref) :
    NPC.isAlive (NPC.setAlive h self status) r
      = if r = self then status else NPC.isAlive h r := by
  by_cases hr : r = self
  · subst hr
    simp [NPC.setAlive, NPC.isAlive, Function.update]
  · simp [NPC.setAlive, NPC.isAlive, Function.update, hr]

/-- The only write of `processBattle` to the agents is `setAlive(false)`. -/
theorem processBattle_heap (e e1 : GameEngine) (task : BattleTask)
    (h : e.processBattle task = .ok e1) :
    e1.heap = e.heap ∨ ∃ defender, e1.heap = NPC.setAlive e.heap defender false := by
  simp only [GameEngine.processBattle] at h
  repeat' split at h
  all_goals first
    | (cases h; done)
    | (cases h; exact Or.inl rfl)
    | (cases h; exact Or.inr ⟨_, rfl⟩)

/-- `processBattle` revives nobody. -/
theorem processBattle_dead (e e1 : GameEngine) (task : BattleTask) (r : Ref)
    (h : e.processBattle task = .ok e1) (hdead : NPC.isAlive e.heap r = false) :
    NPC.isAlive e1.heap r = false := by
  rcases processBattle_heap e e1 task h with h1 | ⟨defender, h1⟩
  · rw [h1]; exact hdead
  · rw [h1, setAlive_alive]
    split
    · rfl
    · exact hdead

/-- C11, as the code has it: a dead agent is still dead after `setAlive(false)`,
`setPosition`, `move` and `processBattle`, whichever agent they are applied to
(`tryAttack` writes to no agent at all: it returns its result and the generator
only); `setAlive(true)` is not guarded and sets the flag of a dead agent back to
true. -/
theorem dead_stays_dead (lib : MoveLib) (h : Heap) (r : Ref)
    (hdead : NPC.isAlive h r = false) :
    (∀ s, NPC.isAlive (NPC.setAlive h s false) r = false) ∧
    (∀ s newX newY, NPC.isAlive (NPC.setPosition h s newX newY) r = false) ∧
    (∀ s minX maxX minY maxY g,
      NPC.isAlive (NPC.move lib h s minX maxX minY maxY g).1 r = false) ∧
    (∀ (e e1 : GameEngine) (task : BattleTask), e.heap = h →
      e.processBattle task = .ok e1 → NPC.isAlive e1.heap r = false) ∧
    NPC.isAlive (NPC.setAlive h r true) r = true := by
  refine ⟨?_, ?_, ?_, ?_, ?_⟩
  · intro s
    rw [setAlive_alive]
    split
    · rfl
    · exact hdead
  · intro s newX newY
    rw [setPosition_alive]; exact hdead
  · intro s minX maxX minY maxY g
    rw [move_alive]; exact hdead
  · intro e e1 task he hok
    subst he
    exact processBattle_dead e e1 task r hok hdead
  · rw [setAlive_alive, if_pos rfl]

theorem dead_stays_dead_witness :
    NPC.isAlive (heap2 { wolf with alive := false } sq) 0 = false ∧
    NPC.isAlive (NPC.setPosition (heap2 { wolf with alive := false } sq) 0 50 50) 0 = false ∧
    NPC.isAlive
      (NPC.move libExample (heap2 { wolf with alive := false } sq) 0 0 100 0 100
        (Rng.ofList [0, 1000])).1 0 = false :=
  ⟨by decide,
    (dead_stays_dead libExample (heap2 { wolf with alive := false } sq) 0 (by decide)).2.1
      0 50 50,
    (dead_stays_dead libExample (heap2 { wolf with alive := false } sq) 0 (by decide)).2.2.1
      0 0 100 0 100 (Rng.ofList [0, 1000])⟩

/-- C11 fails as stated: `setAlive(true)` on a dead agent makes it alive. -/
theorem dead_revived_by_setAlive :
    NPC.isAlive (heap2 { wolf with alive := false } sq) 0 = false ∧
    NPC.isAlive (NPC.setAlive (heap2 { wolf with alive := false } sq) 0 true) 0 = true := by
  decide

/-- C12, as the code has it: after `move` with the engine's map bounds the
position of a living agent lies in `0 ≤ x ≤ 100`, `0 ≤ y ≤ 100`, wherever it
started; `setPosition` stores the coordinates it is given, without clamping. -/
theorem move_in_map_setPosition_as_given (lib : MoveLib) (h : Heap) (self : Ref) (g : Rng)
    (halive : NPC.isAlive h self = true) :
    ((0 ≤ NPC.getX (NPC.move lib h self GameEngine.MAP_MIN_X GameEngine.MAP_MAX_X
          GameEngine.MAP_MIN_Y GameEngine.MAP_MAX_Y g).1 self ∧
      NPC.getX (NPC.move lib h self GameEngine.MAP_MIN_X GameEngine.MAP_MAX_X
          GameEngine.MAP_MIN_Y GameEngine.MAP_MAX_Y g).1 self ≤ 100) ∧
     (0 ≤ NPC.getY (NPC.move lib h self GameEngine.MAP_MIN_X GameEngine.MAP_MAX_X
          GameEngine.MAP_MIN_Y GameEngine.MAP_MAX_Y g).1 self ∧
      NPC.getY (NPC.move lib h self GameEngine.MAP_MIN_X GameEngine.MAP_MAX_X
          GameEngine.MAP_MIN_Y GameEngine.MAP_MAX_Y g).1 self ≤ 100)) ∧
    (∀ newX newY, NPC.getX (NPC.setPosition h self newX newY) self = newX ∧
      NPC.getY (NPC.setPosition h self newX newY) self = newY) := by
  refine ⟨?_, ?_⟩
  · exact move_bounds lib h self GameEngine.MAP_MIN_X GameEngine.MAP_MAX_X
      GameEngine.MAP_MIN_Y GameEngine.MAP_MAX_Y g halive
      (by norm_num [GameEngine.MAP_MIN_X, GameEngine.MAP_MAX_X])
      (by norm_num [GameEngine.MAP_MIN_Y, GameEngine.MAP_MAX_Y])
  · intro newX newY
    simp [NPC.getX, NPC.getY, NPC.setPosition]

theorem move_in_map_setPosition_as_given_witness :
    NPC.isAlive (heap2 sq wolf) 0 = true ∧
    NPC.getX (NPC.move libExample (heap2 sq wolf) 0 GameEngine.MAP_MIN_X GameEngine.MAP_MAX_X
        GameEngine.MAP_MIN_Y GameEngine.MAP_MAX_Y (Rng.ofList [1600, 1800])).1 0 ≤ 100 ∧
    NPC.getX (NPC.setPosition (heap2 sq wolf) 0 200 300) 0 = 200 :=
  ⟨by decide,
    (move_in_map_setPosition_as_given libExample (heap2 sq wolf) 0 (Rng.ofList [1600, 1800])
      (by decide)).1.1.2,
    ((move_in_map_setPosition_as_given libExample (heap2 sq wolf) 0 (Rng.ofList [1600, 1800])
      (by decide)).2 200 300).1⟩

/-- C12 fails as stated: `setPosition(200, 300)` leaves the agent at (200, 300),
outside the movement domain. -/
theorem setPosition_outside_map :
    NPC.getX (NPC.setPosition (heap2 sq wolf) 0 200 300) 0 = 200 ∧
    NPC.getY (NPC.setPosition (heap2 sq wolf) 0 200 300) 0 = 300 ∧
    ¬ (NPC.getX (NPC.setPosition (heap2 sq wolf) 0 200 300) 0 ≤ GameEngine.MAP_MAX_X) := by
  decide!

/-- C13: for a living agent of any species, any starting position, any values
drawn for the direction and any bounds with `minX ≤ maxX` and `minY ≤ maxY`,
the position after `move` satisfies `minX ≤ x ≤ maxX` and `minY ≤ y ≤ maxY`. -/
theorem move_within_bounds (lib : MoveLib) (h : Heap) (self : Ref)
    (minX maxX minY maxY : ℚ) (g : Rng) (halive : NPC.isAlive h self = true)
    (hx : minX ≤ maxX) (hy : minY ≤ maxY) :
    (minX ≤ NPC.getX (NPC.move lib h self minX maxX minY maxY g).1 self ∧
      NPC.getX (NPC.move lib h self minX maxX minY maxY g).1 self ≤ maxX) ∧
    (minY ≤ NPC.getY (NPC.move lib h self minX maxX minY maxY g).1 self ∧
      NPC.getY (NPC.move lib h self minX maxX minY maxY g).1 self ≤ maxY) :=
  move_bounds lib h self minX maxX minY maxY g halive hx hy

theorem move_within_bounds_witness :
    NPC.isAlive (heap2 sq wolf) 0 = true ∧
    NPC.getX (NPC.move libExample (heap2 sq wolf) 0 0 100 0 100 (Rng.ofList [0, 1000])).1 0
      = 95 ∧
    NPC.getX (NPC.move libExample (heap2 sq wolf) 0 0 100 0 100 (Rng.ofList [1600, 1800])).1 0
      = 100 ∧
    (0 ≤ NPC.getY (NPC.move libExample (heap2 sq wolf) 0 0 100 0 100
        (Rng.ofList [0, 1000])).1 0 ∧
      NPC.getY (NPC.move libExample (heap2 sq wolf) 0 0 100 0 100
        (Rng.ofList [0, 1000])).1 0 ≤ 100) :=
  ⟨by decide, by decide!, by decide!,
    (move_within_bounds libExample (heap2 sq wolf) 0 0 100 0 100 (Rng.ofList [0, 1000])
      (by decide) (by norm_num) (by norm_num)).2⟩

/-! ## Distances (C14 to C16) -/

/-- C14, as the code has it: for a living agent `A`, `A.calculateDistance(A)`
is 0 whatever its position; for a dead `A` the liveness test comes first and
the call returns the sentinel 999999. -/
theorem calculateDistance_self (h : Heap) (a : Ref) :
    (NPC.isAlive h a = true → NPC.calculateDistance h a (some a) = Distance.ofRat 0) ∧
    (NPC.isAlive h a = false →
      NPC.calculateDistance h a (some a) = Distance.ofRat 999999) := by
  constructor <;> intro ha <;> simp [NPC.calculateDistance, ha]

theorem calculateDistance_self_witness :
    NPC.isAlive (heap2 sq wolf) 0 = true ∧
    NPC.calculateDistance (heap2 sq wolf) 0 (some 0) = Distance.ofRat 0 :=
  ⟨by decide, (calculateDistance_self (heap2 sq wolf) 0).1 (by decide)⟩

/-- C14 fails as stated: a dead agent's distance to itself is the sentinel, not
0. -/
theorem calculateDistance_dead_self :
    NPC.calculateDistance (heap2 { wolf with alive := false } sq) 0 (some 0)
      = Distance.ofRat 999999 ∧
    NPC.calculateDistance (heap2 { wolf with alive := false } sq) 0 (some 0)
      ≠ Distance.ofRat 0 := by
  decide!

/-- C15: for a target that is null or dead, `calculateDistance` returns the
sentinel 999999, which is greater than the attack range of every agent, so the
target is within no agent's range. -/
theorem calculateDistance_sentinel (h : Heap) (a : Ref) (target : Option Ref)
    (hgone : ∀ t, target = some t → NPC.isAlive h t = false) :
    NPC.calculateDistance h a target = Distance.ofRat 999999 ∧
    ∀ b, NPC.getAttackDistance h b < Distance.ofRat 999999 ∧
      ¬ NPC.calculateDistance h a target ≤ NPC.getAttackDistance h b := by
  have hs : NPC.calculateDistance h a target = Distance.ofRat 999999 := by
    cases target with
    | none => rfl
    | some t => simp [NPC.calculateDistance, hgone t rfl]
  refine ⟨hs, fun b => ?_⟩
  rw [hs]
  cases hb : (h b).species <;>
    simp only [NPC.getAttackDistance, hb, Distance.lt_def, Distance.le_def, Distance.ofRat] <;>
    norm_num

theorem calculateDistance_sentinel_witness :
    NPC.calculateDistance (heap2 sq wolf) 0 none = Distance.ofRat 999999 ∧
    NPC.calculateDistance (heap2 sq { wolf with alive := false }) 0 (some 1)
      = Distance.ofRat 999999 :=
  ⟨(calculateDistance_sentinel (heap2 sq wolf) 0 none (by simp)).1,
    (calculateDistance_sentinel (heap2 sq { wolf with alive := false }) 0 (some 1)
      (by intro t ht; cases ht; decide)).1⟩

/-- C16: for a living agent `B` other than `A`, `A.calculateDistance(B)` is the
Euclidean distance: the square root of `(x1 - x2)^2 + (y1 - y2)^2`, also when
read as a real number. -/
theorem calculateDistance_euclidean (h : Heap) (a b : Ref) (hne : b ≠ a)
    (halive : NPC.isAlive h b = true) :
    NPC.calculateDistance h a (some b)
      = Distance.sqrt (((h a).x - (h b).x) ^ 2 + ((h a).y - (h b).y) ^ 2) ∧
    Real.sqrt ((NPC.calculateDistance h a (some b)).radicand : ℝ)
      = Real.sqrt ((((h a).x : ℝ) - (h b).x) ^ 2 + (((h a).y : ℝ) - (h b).y) ^ 2) := by
  have hd : NPC.calculateDistance h a (some b)
      = Distance.sqrt (((h a).x - (h b).x) ^ 2 + ((h a).y - (h b).y) ^ 2) := by
    simp only [NPC.calculateDistance, halive, hne, Distance.sqrt, Bool.not_true,
      Bool.false_eq_true, if_false, Distance.mk.injEq]
    ring
  refine ⟨hd, ?_⟩
  rw [hd]
  simp [Distance.sqrt]

theorem calculateDistance_euclidean_witness :
    NPC.isAlive (heap2 (NPC.new .Squirrel "S1" 0 0) (NPC.new .Squirrel "S2" 3 4)) 1 = true ∧
    NPC.calculateDistance (heap2 (NPC.new .Squirrel "S1" 0 0) (NPC.new .Squirrel "S2" 3 4)) 0
      (some 1) = Distance.ofRat 5 ∧
    Real.sqrt ((NPC.calculateDistance (heap2 (NPC.new .Squirrel "S1" 0 0)
      (NPC.new .Squirrel "S2" 3 4)) 0 (some 1)).radicand : ℝ) = 5 := by
  have h := calculateDistance_euclidean
    (heap2 (NPC.new .Squirrel "S1" 0 0) (NPC.new .Squirrel "S2" 3 4)) 0 1 (by decide)
    (by decide)
  refine ⟨by decide, ?_, ?_⟩
  · rw [h.1]; decide!
  · rw [h.2]
    have h25 : ((((heap2 (NPC.new .Squirrel "S1" 0 0) (NPC.new .Squirrel "S2" 3 4)) 0).x : ℝ)
        - ((heap2 (NPC.new .Squirrel "S1" 0 0) (NPC.new .Squirrel "S2" 3 4)) 1).x) ^ 2
        + ((((heap2 (NPC.new .Squirrel "S1" 0 0) (NPC.new .Squirrel "S2" 3 4)) 0).y : ℝ)
        - ((heap2 (NPC.new .Squirrel "S1" 0 0) (NPC.new .Squirrel "S2" 3 4)) 1).y) ^ 2
        = 5 ^ 2 := by
      simp [heap2, NPC.new]
      norm_num
    rw [h25, Real.sqrt_sq (by norm_num)]

/-! ## Spawn validation and the factory (C17, C18) -/

/-- The domain that `isValidCoordinates` tests. -/
theorem isValidCoordinates_dom (x y : ℚ) :
    NPC.isValidCoordinates x y = true ↔ (0 < x ∧ x ≤ 500) ∧ (0 < y ∧ y ≤ 500) := by
  simp [NPC.isValidCoordinates, and_assoc]

/-- C17: `isValidCoordinates(x, y)` is true exactly when `0 < x ≤ 500` and
`0 < y ≤ 500`. -/
theorem isValidCoordinates_iff (x y : ℚ) :
    NPC.isValidCoordinates x y = true ↔ (0 < x ∧ x ≤ 500) ∧ (0 < y ∧ y ≤ 500) := by
  simp [NPC.isValidCoordinates, and_assoc]

/-- C18: `createNPC` returns an agent exactly when `0 < x ≤ 500` and
`0 < y ≤ 500`; the agent is then alive, of the species and name asked for, at
`(x, y)`; otherwise the result is null and no agent is made. -/
theorem createNPC_iff (type : NPCFactory.NPCType) (name : String) (x y : ℚ) :
    ((NPCFactory.createNPC type name x y).1.isSome = true ↔
      (0 < x ∧ x ≤ 500) ∧ (0 < y ∧ y ≤ 500)) ∧
    (∀ npc, (NPCFactory.createNPC type name x y).1 = some npc →
      npc.alive = true ∧ npc.species = type.species ∧ npc.name = name ∧
        npc.x = x ∧ npc.y = y) ∧
    (¬ ((0 < x ∧ x ≤ 500) ∧ (0 < y ∧ y ≤ 500)) →
      (NPCFactory.createNPC type name x y).1 = none) := by
  by_cases hv : NPC.isValidCoordinates x y = true
  · have hdom := (isValidCoordinates_dom x y).mp hv
    cases type <;>
      simp [NPCFactory.createNPC, hv, hdom, NPC.new, NPCFactory.NPCType.species]
  · have hdom : ¬ ((0 < x ∧ x ≤ 500) ∧ (0 < y ∧ y ≤ 500)) :=
      fun hd => hv ((isValidCoordinates_dom x y).mpr hd)
    simp only [Bool.not_eq_true] at hv
    simp [NPCFactory.createNPC, hv, hdom]

theorem createNPC_iff_witness :
    (NPCFactory.createNPC .SQUIRREL "TestSquirrel" 100 200).1
      = some (NPC.new .Squirrel "TestSquirrel" 100 200) ∧
    (NPCFactory.createNPC .SQUIRREL "BadNPC" 0 0).1 = none := by
  refine ⟨by decide!, ?_⟩
  exact (createNPC_iff .SQUIRREL "BadNPC" 0 0).2.2 (by norm_num)

/-! ## The kill event (C19) -/

/-- The string built by `processBattle` is the specified text followed by a
newline. -/
theorem killMessage_eq (h : Heap) (attacker defender : Ref) :
    GameEngine.killMessage h attacker defender
      = specKillEvent h attacker defender ++ "\n" := by
  simp only [GameEngine.killMessage, specKillEvent, String.append_assoc]
  rfl

/-- C19, as the code has it: on a successful kill each attached observer is
handed the string `<attacker name> (<attacker type>) killed <defender name>
(<defender type>)` followed by one newline character, the types written as
`getType` gives them; the same string goes to `std::cout`. -/
theorem processBattle_event_text (e : GameEngine) (attacker defender : Ref)
    (hA : NPC.isAlive e.heap attacker = true) (hD : NPC.isAlive e.heap defender = true)
    (hdist : NPC.calculateDistance e.heap attacker (some defender)
      ≤ NPC.getAttackDistance e.heap attacker)
    (hcan : NPC.canAttack e.heap attacker (some defender) = true)
    (hwin : (NPC.rollDice e.rng).1 > (NPC.rollDice (NPC.rollDice e.rng).2).1) :
    ∃ e1, e.processBattle { attacker := some attacker, defender := some defender } = .ok e1 ∧
      e1.updates = e.updates ++ e.battleLogger.observers.map (fun observer =>
        (observer, specKillEvent e.heap attacker defender ++ "\n")) ∧
      e1.cout = e.cout ++ [specKillEvent e.heap attacker defender ++ "\n"] := by
  refine ⟨_, processBattle_of_valid e attacker defender hA hD hdist hcan, ?_, ?_⟩
  · rw [if_pos hwin, killMessage_eq]
  · rw [if_pos hwin, killMessage_eq]

theorem processBattle_event_text_witness :
    ∃ e1, (engine2 sq dru (Rng.ofList [5, 0])).processBattle
        { attacker := some 0, defender := some 1 } = .ok e1 ∧
      e1.updates = [(7, "Sq (Squirrel) killed Dru (Druid)\n"),
        (8, "Sq (Squirrel) killed Dru (Druid)\n")] := by
  obtain ⟨e1, h1, hupd, _⟩ := processBattle_event_text (engine2 sq dru (Rng.ofList [5, 0]))
    0 1 (by decide) (by decide) (by decide!) (by decide) (by decide)
  refine ⟨e1, h1, ?_⟩
  rw [hupd]; decide

/-- C19 fails as stated: the string delivered for the squirrel killing the
werewolf ends in a newline, so it is not the specified text. -/
theorem processBattle_event_has_newline :
    ∃ e1, (engine2 sq wolf (Rng.ofList [2, 1])).processBattle
        { attacker := some 0, defender := some 1 } = .ok e1 ∧
      e1.updates = [(7, "Sq (Squirrel) killed Wolf (Werewolf)\n"),
        (8, "Sq (Squirrel) killed Wolf (Werewolf)\n")] ∧
      specKillEvent (heap2 sq wolf) 0 1 = "Sq (Squirrel) killed Wolf (Werewolf)" ∧
      ∀ u ∈ e1.updates, u.2 ≠ specKillEvent (heap2 sq wolf) 0 1 := by
  have hv := processBattle_of_valid (engine2 sq wolf (Rng.ofList [2, 1])) 0 1
    (by decide) (by decide) (by decide!) (by decide)
  rw [if_pos (by decide)] at hv
  refine ⟨_, hv, by decide, by decide, by decide⟩

/-! ## Saving the population (C20) -/

/-- C20 fails on the code: `getType` gives "Squirrel", "Werewolf" or "Druid",
none of which `stringToType` recognises, so the species field of every record
is `SQUIRREL`; a living werewolf and a living druid are both saved as
squirrels. -/
theorem saveToFile_species_always_squirrel :
    (∀ (h : Heap) (npc : Ref),
      NPCFactory.typeToString (NPCFactory.stringToType (NPC.getType h npc)) = "SQUIRREL") ∧
    NPCFactory.saveToFile showDoubleExample (heap2 wolf dru) [some 0, some 1]
        "test_save.txt" true
      = .ok { result := true, file := "SQUIRREL,Wolf,101,101\nSQUIRREL,Dru,102,102\n",
              cout := ["Saved 2 NPCs to test_save.txt\n"], cerr := [] } := by
  constructor
  · intro h npc
    cases hs : (h npc).species <;> simp [NPC.getType, hs] <;> decide
  · rfl

/-! ## Detection for a druid (C22) -/

/-- Whatever the visitor, `detectForNPC` applied to a druid leaves the queue as
it was. -/
theorem detectForNPC_druid (v : DetectionVisitor) (h : Heap) (druid : Ref) (q : BattleQueue)
    (hsp : (h druid).species = .Druid) :
    v.detectForNPC h druid q = q := by
  have hcan : ∀ target, NPC.canAttack h druid (some target) = false := by
    intro target
    simp [NPC.canAttack, hsp, Druid.canAttack]
  unfold DetectionVisitor.detectForNPC
  split
  · rfl
  · have hnone : ∀ l : List Ref,
        l.filterMap (fun _ => (none : Option BattleTask)) = [] := by
      intro l
      induction l with
      | nil => rfl
      | cons _ _ _ => simp
    rw [detect_foldl]
    simp [hcan, hnone]

/-- C22: for a druid, `visit(Druid*)` has the same effect on the battle queue as
`detectForNPC` applied to that druid, namely none: the queue is unchanged, for
every population, current agent and queue, and so is it after `detectBattles`
for a druid. (The body of `visit(Druid*)` is empty; the scan of
`detectForNPC` would enqueue nothing, since a druid can attack nobody.) -/
theorem visitDruid_eq_detectForNPC (v : DetectionVisitor) (h : Heap) (druid : Ref)
    (q : BattleQueue) (hsp : (h druid).species = .Druid) :
    v.visitDruid h druid q = v.detectForNPC h druid q ∧
    v.visitDruid h druid q = q ∧
    DetectionVisitor.detectBattles { npcs := v.npcs, currentNPC := some druid } h q = .ok q := by
  refine ⟨?_, rfl, ?_⟩
  · rw [detectForNPC_druid v h druid q hsp]
    rfl
  · simp [DetectionVisitor.detectBattles, NPC.accept, hsp, DetectionVisitor.visitDruid]

theorem visitDruid_eq_detectForNPC_witness :
    (heap2 dru sq 0).species = .Druid ∧
    DetectionVisitor.detectForNPC { npcs := [some 0, some 1], currentNPC := some 0 }
      (heap2 dru sq) 0 {} = {} ∧
    DetectionVisitor.detectBattles { npcs := [some 0, some 1], currentNPC := some 0 }
      (heap2 dru sq) {} = .ok {} := by
  have h := visitDruid_eq_detectForNPC { npcs := [some 0, some 1], currentNPC := some 0 }
    (heap2 dru sq) 0 {} (by decide)
  exact ⟨by decide, h.1.symm.trans h.2.1, h.2.2⟩

/-! ## Queue bookkeeping (C23, C24, C30) -/

/-- What `tryGetTask` does, by the state of the queue. -/
theorem tryGetTask_cases (q : BattleQueue) (task : BattleTask) :
    (q.tasks = [] ∧ q.tryGetTask task = (false, task, q)) ∨
    (∃ front rest, q.tasks = front :: rest ∧
      q.tryGetTask task = (true, front, { q with tasks := rest })) := by
  obtain ⟨tasks, stopFlag⟩ := q
  cases tasks with
  | nil => exact Or.inl ⟨rfl, tryGetTask_nil stopFlag task⟩
  | cons front rest => exact Or.inr ⟨front, rest, rfl, tryGetTask_cons front rest stopFlag task⟩

/-- The size after a sequence of operations, plus the successful dequeues, is
the size before plus the `addTask` calls. -/
theorem run_size (ops : List QueueOp) :
    ∀ q : BattleQueue,
      (q.run ops).size + (q.dequeueResults ops).count true
        = q.size + (ops.filter QueueOp.isAddTask).length := by
  induction ops with
  | nil => intro q; simp [BattleQueue.run, BattleQueue.dequeueResults]
  | cons op rest ih =>
    intro q
    have hrun : q.run (op :: rest) = (q.step op).run rest := rfl
    rw [hrun]
    cases op with
    | addTask task =>
      have := ih (q.step (.addTask task))
      simp only [BattleQueue.dequeueResults, List.filter_cons, QueueOp.isAddTask, if_true,
        List.length_cons]
      simp only [BattleQueue.step, BattleQueue.addTask, BattleQueue.size, List.length_append,
        List.length_singleton] at this ⊢
      omega
    | tryGetTask =>
      have := ih (q.step .tryGetTask)
      simp only [BattleQueue.dequeueResults, List.filter_cons, QueueOp.isAddTask,
        Bool.false_eq_true, if_false]
      rcases tryGetTask_cases q {} with ⟨hq, ht⟩ | ⟨front, rest2, hq, ht⟩
      · simp only [BattleQueue.step, ht, BattleQueue.size] at this ⊢
        simp only [List.count_cons, beq_iff_eq, Bool.false_eq_true, if_false]
        omega
      · simp only [BattleQueue.step, ht, BattleQueue.size, hq, List.length_cons] at this ⊢
        simp only [List.count_cons, beq_self_eq_true, if_true]
        omega
    | stop =>
      have := ih (q.step .stop)
      simpa [BattleQueue.dequeueResults, QueueOp.isAddTask, BattleQueue.step,
        BattleQueue.stop, BattleQueue.size] using this
    | isEmpty =>
      have := ih (q.step .isEmpty)
      simpa [BattleQueue.dequeueResults, QueueOp.isAddTask, BattleQueue.step] using this
    | size =>
      have := ih (q.step .size)
      simpa [BattleQueue.dequeueResults, QueueOp.isAddTask, BattleQueue.step] using this
    | shouldStop =>
      have := ih (q.step .shouldStop)
      simpa [BattleQueue.dequeueResults, QueueOp.isAddTask, BattleQueue.step] using this

/-- C23: after any sequence of public operations on a new queue, `size()` is
the number of `addTask` calls minus the number of `tryGetTask` calls that
returned true, and `isEmpty()` is true exactly when `size()` is 0; `stop`,
`isEmpty`, `size` and `shouldStop` leave the buffered tasks as they are. -/
theorem size_eq_adds_sub_dequeues (ops : List QueueOp) :
    (BattleQueue.run {} ops).size
      = (ops.filter QueueOp.isAddTask).length
        - (BattleQueue.dequeueResults {} ops).count true ∧
    (BattleQueue.dequeueResults {} ops).count true ≤ (ops.filter QueueOp.isAddTask).length ∧
    ((BattleQueue.run {} ops).isEmpty = true ↔ (BattleQueue.run {} ops).size = 0) ∧
    (∀ q : BattleQueue, (q.step .stop).tasks = q.tasks ∧ (q.step .isEmpty).tasks = q.tasks ∧
      (q.step .size).tasks = q.tasks ∧ (q.step .shouldStop).tasks = q.tasks) := by
  have h := run_size ops {}
  have h0 : BattleQueue.size {} = 0 := rfl
  rw [h0] at h
  refine ⟨by omega, by omega, ?_, fun q => ⟨rfl, rfl, rfl, rfl⟩⟩
  simp [BattleQueue.isEmpty, BattleQueue.size, List.isEmpty_iff]

/-- C24: `stop()` is idempotent: after one call the stop flag is set and the
buffered tasks are as before, in the same order, and any further number of
calls leaves exactly that state, for every queue state. -/
theorem stop_idempotent (q : BattleQueue) (n : Nat) :
    q.stop.stop = q.stop ∧ (BattleQueue.stop^[n + 1]) q = q.stop ∧
    q.stop.stopFlag = true ∧ q.stop.tasks = q.tasks := by
  refine ⟨rfl, ?_, rfl, rfl⟩
  induction n with
  | zero => rfl
  | succ k ih => rw [Function.iterate_succ_apply', ih]; rfl

/-- C30: with no other thread running, `tryGetTask` returns true exactly when
the queue is non-empty, stopped or not; it then removes the front task and
hands it to the caller; when it returns false the queue and the caller's task
are as they were. -/
theorem tryGetTask_iff_nonempty (q : BattleQueue) (task : BattleTask) :
    ((q.tryGetTask task).1 = true ↔ q.tasks ≠ []) ∧
    (∀ front rest, q.tasks = front :: rest →
      q.tryGetTask task = (true, front, { tasks := rest, stopFlag := q.stopFlag })) ∧
    ((q.tryGetTask task).1 = false → q.tryGetTask task = (false, task, q)) := by
  rcases tryGetTask_cases q task with ⟨hq, ht⟩ | ⟨front, rest, hq, ht⟩
  · refine ⟨by simp [ht, hq], ?_, fun _ => ht⟩
    intro front rest hfr
    rw [hq] at hfr
    cases hfr
  · refine ⟨by simp [ht, hq], ?_, ?_⟩
    · intro front2 rest2 hfr
      rw [hq] at hfr
      cases hfr
      exact ht
    · intro hf
      rw [ht] at hf
      cases hf

theorem tryGetTask_iff_nonempty_witness :
    BattleQueue.tryGetTask
        { tasks := [{ attacker := some 0, defender := some 1 },
            { attacker := some 0, defender := some 2 }], stopFlag := true } {}
      = (true, { attacker := some 0, defender := some 1 },
          { tasks := [{ attacker := some 0, defender := some 2 }], stopFlag := true }) ∧
    BattleQueue.tryGetTask {} { attacker := some 3, defender := some 4 }
      = (false, { attacker := some 3, defender := some 4 }, {}) :=
  ⟨(tryGetTask_iff_nonempty _ {}).2.1 _ _ rfl,
    (tryGetTask_iff_nonempty {} { attacker := some 3, defender := some 4 }).2.2 (by decide)⟩

/-! ## Observers (C25) -/

/-- The observers after a sequence of `attach` calls on a subject. -/
theorem attach_foldl (s : BattleSubject) (observers : List Nat) :
    (observers.foldl BattleSubject.attach s).observers = s.observers ++ observers := by
  induction observers generalizing s with
  | nil => simp
  | cons o rest ih => simp [ih, BattleSubject.attach]

/-- C25: with observers attached in the order `o1..on` (a pointer attached
twice counts twice), `logBattleEvent(e)` calls `update(e)` once for each
attachment, in attachment order, each time with the string `e`, and adds no
other call; with no observer attached it does nothing. -/
theorem logBattleEvent_each_once (observers : List Nat) (event : String) (log : Updates) :
    BattleLogger.logBattleEvent (observers.foldl BattleSubject.attach {}) event log
      = log ++ observers.map (fun observer => (observer, event)) ∧
    BattleLogger.logBattleEvent {} event log = log := by
  refine ⟨?_, rfl⟩
  rw [BattleLogger.logBattleEvent, notify_eq, attach_foldl]
  rfl

/-! ## The species table (C26) -/

/-- C26: whatever the state of the agent, a Squirrel has move distance 5,
attack range 5 and symbol 'S'; a Werewolf 40, 5 and 'W'; a Druid 10, 10 and
'D'. -/
theorem species_table (h : Heap) (self : Ref) :
    ((h self).species = .Squirrel →
      NPC.getMoveDistance h self = 5 ∧ NPC.getAttackDistance h self = Distance.ofRat 5 ∧
        NPC.getMapSymbol h self = 'S') ∧
    ((h self).species = .Werewolf →
      NPC.getMoveDistance h self = 40 ∧ NPC.getAttackDistance h self = Distance.ofRat 5 ∧
        NPC.getMapSymbol h self = 'W') ∧
    ((h self).species = .Druid →
      NPC.getMoveDistance h self = 10 ∧ NPC.getAttackDistance h self = Distance.ofRat 10 ∧
        NPC.getMapSymbol h self = 'D') := by
  refine ⟨?_, ?_, ?_⟩ <;> intro hs <;>
    simp [NPC.getMoveDistance, NPC.getAttackDistance, NPC.getMapSymbol, hs]

theorem species_table_witness :
    (NPC.getMoveDistance (heap2 sq wolf) 0 = 5 ∧
      NPC.getAttackDistance (heap2 sq wolf) 0 = Distance.ofRat 5 ∧
      NPC.getMapSymbol (heap2 sq wolf) 0 = 'S') ∧
    (NPC.getMoveDistance (heap2 sq wolf) 1 = 40 ∧
      NPC.getAttackDistance (heap2 sq wolf) 1 = Distance.ofRat 5 ∧
      NPC.getMapSymbol (heap2 sq wolf) 1 = 'W') ∧
    (NPC.getMoveDistance (heap2 { dru with alive := false } sq) 0 = 10 ∧
      NPC.getAttackDistance (heap2 { dru with alive := false } sq) 0 = Distance.ofRat 10 ∧
      NPC.getMapSymbol (heap2 { dru with alive := false } sq) 0 = 'D') :=
  ⟨(species_table (heap2 sq wolf) 0).1 (by decide),
    (species_table (heap2 sq wolf) 1).2.1 (by decide),
    (species_table (heap2 { dru with alive := false } sq) 0).2.2 (by decide)⟩

/-! ## The odds of an attack (C27) -/

/-- C27: for a pair with `canAttack` true, among the 36 pairs of dice values
(`a` for the attacker, `d` for the defender) `tryAttack` returns true for
exactly 15 and false for exactly 21; it succeeds for instance on (2, 1) and
fails on (1, 1). -/
theorem tryAttack_wins_15_of_36 (h : Heap) (attacker : Ref) (target : Option Ref)
    (hcan : NPC.canAttack h attacker target = true) :
    rollPairs.length = 36 ∧
    (∀ p ∈ rollPairs, (NPC.rollDice (Rng.rolling p.1 p.2)).1 = p.1 ∧
      (NPC.rollDice (NPC.rollDice (Rng.rolling p.1 p.2)).2).1 = p.2) ∧
    rollPairs.countP (fun p => (NPC.tryAttack h attacker target (Rng.rolling p.1 p.2)).1) = 15 ∧
    rollPairs.countP (fun p => !(NPC.tryAttack h attacker target (Rng.rolling p.1 p.2)).1)
      = 21 ∧
    (NPC.tryAttack h attacker target (Rng.rolling 2 1)).1 = true ∧
    (NPC.tryAttack h attacker target (Rng.rolling 1 1)).1 = false := by
  simp only [tryAttack_of_canAttack h attacker target _ hcan]
  decide

theorem tryAttack_wins_15_of_36_witness :
    NPC.canAttack (heap2 sq wolf) 0 (some 1) = true ∧
    rollPairs.countP
      (fun p => (NPC.tryAttack (heap2 sq wolf) 0 (some 1) (Rng.rolling p.1 p.2)).1) = 15 :=
  ⟨by decide, (tryAttack_wins_15_of_36 (heap2 sq wolf) 0 (some 1) (by decide)).2.2.1⟩

/-! ## Loading the population (C21) -/

/-- The vector built by the loop of `loadFromFile`: one agent per line that
yields one, in file order. -/
theorem loadRecords_eq (parseRecord : String → Option (String × String × ℚ × ℚ))
    (lines : List String) :
    ∀ (loaded : List NPC) (cerr : List String),
      (NPCFactory.loadRecords parseRecord lines loaded cerr).1
        = loaded ++ lines.filterMap (lineAgent parseRecord) := by
  induction lines with
  | nil => intro loaded cerr; simp [NPCFactory.loadRecords]
  | cons line rest ih =>
    intro loaded cerr
    cases hp : parseRecord line with
    | none => simp [NPCFactory.loadRecords, hp, ih, lineAgent]
    | some r =>
      obtain ⟨typeStr, name, x, y⟩ := r
      cases hc : (NPCFactory.createNPC (NPCFactory.stringToType typeStr) name x y).1 with
      | none => simp [NPCFactory.loadRecords, hp, hc, ih, lineAgent]
      | some made => simp [NPCFactory.loadRecords, hp, hc, ih, lineAgent]

/-- What the factory returns, by the validity of the coordinates. -/
theorem createNPC_cases (type : NPCFactory.NPCType) (name : String) (x y : ℚ) :
    (((0 < x ∧ x ≤ 500) ∧ (0 < y ∧ y ≤ 500)) ∧
      (NPCFactory.createNPC type name x y).1 = some (NPC.new type.species name x y)) ∨
    (¬ ((0 < x ∧ x ≤ 500) ∧ (0 < y ∧ y ≤ 500)) ∧
      (NPCFactory.createNPC type name x y).1 = none) := by
  by_cases hv : NPC.isValidCoordinates x y = true
  · left
    refine ⟨(isValidCoordinates_dom x y).mp hv, ?_⟩
    cases type <;> simp [NPCFactory.createNPC, hv, NPCFactory.NPCType.species]
  · right
    refine ⟨fun hd => hv ((isValidCoordinates_dom x y).mpr hd), ?_⟩
    simp only [Bool.not_eq_true] at hv
    simp [NPCFactory.createNPC, hv]

/-- C21: `loadFromFile` returns one agent for each line whose record the
factory accepts, in file order; every agent returned has `0 < x ≤ 500` and
`0 < y ≤ 500`; a record with coordinates outside that domain yields no agent,
and the lines before and after it are loaded as if it were not there; a record
with coordinates inside it yields the agent at those coordinates. -/
theorem loadFromFile_valid_in_order (parseRecord : String → Option (String × String × ℚ × ℚ))
    (filename : String) (lines : List String) :
    (NPCFactory.loadFromFile parseRecord filename (some lines)).loadedNPCs
      = lines.filterMap (lineAgent parseRecord) ∧
    (∀ npc ∈ (NPCFactory.loadFromFile parseRecord filename (some lines)).loadedNPCs,
      (0 < npc.x ∧ npc.x ≤ 500) ∧ (0 < npc.y ∧ npc.y ≤ 500)) ∧
    (∀ line typeStr name x y, parseRecord line = some (typeStr, name, x, y) →
      ¬ ((0 < x ∧ x ≤ 500) ∧ (0 < y ∧ y ≤ 500)) →
      lineAgent parseRecord line = none ∧
      ∀ before after,
        (NPCFactory.loadFromFile parseRecord filename
            (some (before ++ line :: after))).loadedNPCs
          = (NPCFactory.loadFromFile parseRecord filename (some before)).loadedNPCs
            ++ (NPCFactory.loadFromFile parseRecord filename (some after)).loadedNPCs) ∧
    (∀ line typeStr name x y, parseRecord line = some (typeStr, name, x, y) →
      (0 < x ∧ x ≤ 500) ∧ (0 < y ∧ y ≤ 500) →
      lineAgent parseRecord line
        = some (NPC.new (NPCFactory.stringToType typeStr).species name x y)) := by
  have hload : ∀ ls, (NPCFactory.loadFromFile parseRecord filename (some ls)).loadedNPCs
      = ls.filterMap (lineAgent parseRecord) := by
    intro ls
    simp [NPCFactory.loadFromFile, loadRecords_eq]
  refine ⟨hload lines, ?_, ?_, ?_⟩
  · intro npc hmem
    rw [hload, List.mem_filterMap] at hmem
    obtain ⟨line, _, hline⟩ := hmem
    unfold lineAgent at hline
    cases hp : parseRecord line with
    | none => rw [hp] at hline; cases hline
    | some r =>
      obtain ⟨typeStr, name, x, y⟩ := r
      rw [hp] at hline
      rcases createNPC_cases (NPCFactory.stringToType typeStr) name x y with ⟨hd, hc⟩ | ⟨_, hc⟩
      · simp only [hc, Option.some.injEq] at hline
        subst hline
        exact hd
      · simp [hc] at hline
  · intro line typeStr name x y hp hbad
    have hnone : lineAgent parseRecord line = none := by
      rcases createNPC_cases (NPCFactory.stringToType typeStr) name x y with ⟨hd, _⟩ | ⟨_, hc⟩
      · exact absurd hd hbad
      · simp [lineAgent, hp, hc]
    refine ⟨hnone, fun before after => ?_⟩
    rw [hload, hload, hload, List.filterMap_append, List.filterMap_cons, hnone]
  · intro line typeStr name x y hp hgood
    rcases createNPC_cases (NPCFactory.stringToType typeStr) name x y with ⟨_, hc⟩ | ⟨hd, _⟩
    · simp [lineAgent, hp, hc]
    · exact absurd hgood hd

theorem loadFromFile_valid_in_order_witness :
    parseRecordExample "WEREWOLF,Bad,0,50" = some ("WEREWOLF", "Bad", 0, 50) ∧
    (NPCFactory.loadFromFile parseRecordExample "test_save.txt"
        (some ["SQUIRREL,Sq,100,100", "WEREWOLF,Bad,0,50", "DRUID,Dru,102,102"])).loadedNPCs
      = [NPC.new .Squirrel "Sq" 100 100, NPC.new .Druid "Dru" 102 102] := by
  have hp : parseRecordExample "WEREWOLF,Bad,0,50" = some ("WEREWOLF", "Bad", 0, 50) := by
    decide!
  have h := (loadFromFile_valid_in_order parseRecordExample "test_save.txt" []).2.2.1
    "WEREWOLF,Bad,0,50" "WEREWOLF" "Bad" 0 50 hp (by norm_num)
  refine ⟨hp, ?_⟩
  have h2 := h.2 ["SQUIRREL,Sq,100,100"] ["DRUID,Dru,102,102"]
  exact h2.trans (by decide!)

/-! ## Movement against its reference definition (C29) -/

/-- The two `if`s of `move` on one axis are `clamp`. -/
theorem clamp_eq_ifs (v lo hi : ℚ) :
    (if (if v < lo then lo else v) > hi then hi else (if v < lo then lo else v))
      = clamp v lo hi := by
  unfold clamp
  rw [min_def, max_def]
  split_ifs <;> first | rfl | linarith

/-- Clamping a displaced coordinate moves a point inside the bounds by at most
the displacement. -/
theorem clamp_displacement (x delta lo hi m : ℚ) (hlo : lo ≤ x) (hhi : x ≤ hi)
    (hd : |delta| ≤ m) : |clamp (x + delta) lo hi - x| ≤ m := by
  have h1 := abs_le.mp hd
  unfold clamp
  rw [abs_le, min_def, max_def]
  split_ifs <;> constructor <;> linarith

/-- The step taken along one axis is at most the move distance when the length
computed is at least the component. -/
theorem step_le (d len m : ℚ) (hm : 0 ≤ m) (hcomp : |d| ≤ len) :
    |(if len > 0 then d / len else d) * m| ≤ m := by
  rw [abs_mul, abs_of_nonneg hm]
  have h1 : |if len > 0 then d / len else d| ≤ 1 := by
    split_ifs with hl
    · rw [abs_div, abs_of_pos hl]
      exact (div_le_one hl).mpr hcomp
    · have : |d| ≤ 0 := le_trans hcomp (not_lt.mp hl)
      have := abs_nonneg d
      linarith
  calc |if len > 0 then d / len else d| * m ≤ 1 * m := mul_le_mul_of_nonneg_right h1 hm
    _ = m := one_mul m

theorem getMoveDistance_nonneg (h : Heap) (self : Ref) : 0 ≤ NPC.getMoveDistance h self := by
  unfold NPC.getMoveDistance
  split <;> norm_num

/-- `move` on a living agent, with the clamping written as `clamp`. -/
theorem move_alive_clamp (lib : MoveLib) (h : Heap) (self : Ref) (minX maxX minY maxY : ℚ)
    (g : Rng) (halive : NPC.isAlive h self = true) :
    NPC.move lib h self minX maxX minY maxY g
      = (Function.update h self
          { h self with
            x := clamp ((h self).x
              + (if lib.sqrt ((lib.dirDist g).1 * (lib.dirDist g).1
                    + (lib.dirDist (lib.dirDist g).2).1 * (lib.dirDist (lib.dirDist g).2).1) > 0
                  then (lib.dirDist g).1 / lib.sqrt ((lib.dirDist g).1 * (lib.dirDist g).1
                    + (lib.dirDist (lib.dirDist g).2).1 * (lib.dirDist (lib.dirDist g).2).1)
                  else (lib.dirDist g).1) * NPC.getMoveDistance h self) minX maxX
            y := clamp ((h self).y
              + (if lib.sqrt ((lib.dirDist g).1 * (lib.dirDist g).1
                    + (lib.dirDist (lib.dirDist g).2).1 * (lib.dirDist (lib.dirDist g).2).1) > 0
                  then (lib.dirDist (lib.dirDist g).2).1
                    / lib.sqrt ((lib.dirDist g).1 * (lib.dirDist g).1
                    + (lib.dirDist (lib.dirDist g).2).1 * (lib.dirDist (lib.dirDist g).2).1)
                  else (lib.dirDist (lib.dirDist g).2).1) * NPC.getMoveDistance h self)
              minY maxY },
          (lib.dirDist (lib.dirDist g).2).2) := by
  rw [← clamp_eq_ifs, ← clamp_eq_ifs, NPC.move, halive]
  rfl

/-- C29: `move` is its reference definition `specMove` whenever the length
computed for a non-zero direction is positive (as a square root is): a dead
agent is left as it is and nothing is drawn; a living agent at `(x, y)` goes to
`(clamp (x + m * dx / len), clamp (y + m * dy / len))`, and to
`(clamp x, clamp y)` for the zero direction. From a start inside the bounds,
when the length is at least each component in absolute value, no coordinate
changes by more than the move distance. -/
theorem move_eq_specMove (lib : MoveLib) (h : Heap) (self : Ref)
    (minX maxX minY maxY : ℚ) (g : Rng)
    (hpos : (lib.dirDist g).1 ≠ 0 ∨ (lib.dirDist (lib.dirDist g).2).1 ≠ 0 →
      0 < lib.sqrt ((lib.dirDist g).1 ^ 2 + (lib.dirDist (lib.dirDist g).2).1 ^ 2)) :
    NPC.move lib h self minX maxX minY maxY g = specMove lib h self minX maxX minY maxY g ∧
    (NPC.isAlive h self = false → NPC.move lib h self minX maxX minY maxY g = (h, g)) ∧
    (NPC.isAlive h self = true →
      (minX ≤ (h self).x ∧ (h self).x ≤ maxX) → (minY ≤ (h self).y ∧ (h self).y ≤ maxY) →
      |(lib.dirDist g).1|
        ≤ lib.sqrt ((lib.dirDist g).1 ^ 2 + (lib.dirDist (lib.dirDist g).2).1 ^ 2) →
      |(lib.dirDist (lib.dirDist g).2).1|
        ≤ lib.sqrt ((lib.dirDist g).1 ^ 2 + (lib.dirDist (lib.dirDist g).2).1 ^ 2) →
      |NPC.getX (NPC.move lib h self minX maxX minY maxY g).1 self - (h self).x|
          ≤ NPC.getMoveDistance h self ∧
        |NPC.getY (NPC.move lib h self minX maxX minY maxY g).1 self - (h self).y|
          ≤ NPC.getMoveDistance h self) := by
  refine ⟨?_, fun hdead => move_of_dead lib h self minX maxX minY maxY g hdead, ?_⟩
  · by_cases halive : NPC.isAlive h self = true
    · rw [move_alive_clamp lib h self minX maxX minY maxY g halive]
      simp only [specMove, halive, Bool.true_eq_false, if_false, ← pow_two]
      by_cases hzero : (lib.dirDist g).1 = 0 ∧ (lib.dirDist (lib.dirDist g).2).1 = 0
      · simp [hzero.1, hzero.2]
      · have hl := hpos (by
          by_contra hc
          push_neg at hc
          exact hzero hc)
        simp only [hzero, if_false, gt_iff_lt, hl, if_true]
        have e1 : ∀ d len m : ℚ, d / len * m = m * d / len := fun d len m => by ring
        rw [e1, e1]
    · have hdead : NPC.isAlive h self = false := by simpa using halive
      rw [move_of_dead lib h self minX maxX minY maxY g hdead]
      simp [specMove, hdead]
  · intro halive hx hy hcx hcy
    rw [move_alive_clamp lib h self minX maxX minY maxY g halive]
    simp only [NPC.getX, NPC.getY, Function.update_same, ← pow_two]
    exact ⟨clamp_displacement _ _ _ _ _ hx.1 hx.2
        (step_le _ _ _ (getMoveDistance_nonneg h self) hcx),
      clamp_displacement _ _ _ _ _ hy.1 hy.2
        (step_le _ _ _ (getMoveDistance_nonneg h self) hcy)⟩

theorem move_eq_specMove_witness :
    NPC.move libExample (heap2 sq wolf) 0 0 100 0 100 (Rng.ofList [0, 1000])
      = specMove libExample (heap2 sq wolf) 0 0 100 0 100 (Rng.ofList [0, 1000]) ∧
    NPC.getX (specMove libExample (heap2 sq wolf) 0 0 100 0 100 (Rng.ofList [0, 1000])).1 0
      = 95 ∧
    |NPC.getX (NPC.move libExample (heap2 sq wolf) 0 0 100 0 100 (Rng.ofList [0, 1000])).1 0
        - (heap2 sq wolf 0).x| ≤ NPC.getMoveDistance (heap2 sq wolf) 0 := by
  have h := move_eq_specMove libExample (heap2 sq wolf) 0 0 100 0 100 (Rng.ofList [0, 1000])
    (fun _ => by decide!)
  exact ⟨h.1, by decide!,
    (h.2.2 (by decide) (by decide!) (by decide!) (by decide!) (by decide!)).1⟩

/-! ## Detection against resolution (C31) -/

/-- What it takes for a task to be among the specified intents of `a`. -/
theorem mem_specIntents (h : Heap) (npcs : List (Option Ref)) (a : Ref) (t : BattleTask)
    (ht : t ∈ specIntents h npcs a) :
    ∃ b, t = { attacker := some a, defender := some b } ∧ b ≠ a ∧
      NPC.isAlive h b = true ∧
      NPC.calculateDistance h a (some b) ≤ NPC.getAttackDistance h a ∧
      NPC.canAttack h a (some b) = true := by
  unfold specIntents at ht
  rw [List.mem_filterMap] at ht
  obtain ⟨entry, _, hentry⟩ := ht
  cases entry with
  | none => cases hentry
  | some b =>
    by_cases hc : b ≠ a ∧ NPC.isAlive h b = true ∧
        NPC.calculateDistance h a (some b) ≤ NPC.getAttackDistance h a ∧
        NPC.canAttack h a (some b) = true
    · dsimp only at hentry
      rw [if_pos hc] at hentry
      exact ⟨b, (Option.some.inj hentry).symm, hc⟩
    · dsimp only at hentry
      rw [if_neg hc] at hentry
      cases hentry

/-- The tasks that `detectBattles` appends for `a`: none, or, for a living `a`,
the specified intents. -/
theorem detectBattles_added (h : Heap) (npcs : List (Option Ref)) (a : Ref) (q : BattleQueue) :
    ∃ added,
      DetectionVisitor.detectBattles { npcs := npcs, currentNPC := some a } h q
        = .ok { tasks := q.tasks ++ added, stopFlag := q.stopFlag } ∧
      (added = [] ∨ (NPC.isAlive h a = true ∧ added = specIntents h npcs a)) := by
  have hq : q = { tasks := q.tasks ++ [], stopFlag := q.stopFlag } := by simp
  by_cases halive : NPC.isAlive h a = true
  · have hd := detectForNPC_eq h npcs a q halive
    cases hs : (h a).species with
    | Squirrel =>
      exact ⟨specIntents h npcs a, by
        simp [DetectionVisitor.detectBattles, NPC.accept, hs, DetectionVisitor.visitSquirrel, hd],
        Or.inr ⟨halive, rfl⟩⟩
    | Werewolf =>
      exact ⟨specIntents h npcs a, by
        simp [DetectionVisitor.detectBattles, NPC.accept, hs, DetectionVisitor.visitWerewolf, hd],
        Or.inr ⟨halive, rfl⟩⟩
    | Druid =>
      refine ⟨[], ?_, Or.inl rfl⟩
      rw [← hq]
      simp [DetectionVisitor.detectBattles, NPC.accept, hs, DetectionVisitor.visitDruid]
  · refine ⟨[], ?_, Or.inl rfl⟩
    rw [← hq]
    have hdead : NPC.isAlive h a = false := by simpa using halive
    cases hs : (h a).species <;>
      simp [DetectionVisitor.detectBattles, NPC.accept, hs, DetectionVisitor.visitSquirrel,
        DetectionVisitor.visitWerewolf, DetectionVisitor.visitDruid,
        DetectionVisitor.detectForNPC, hdead]

/-- C31: every intent that `detectBattles` for `a` appends has non-null and
distinct attacker `a` and defender `b` and, resolved in the state it was
detected in, passes each re-validation check of `processBattle` (both alive,
distance within `a`'s range, `canAttack` true): `processBattle` returns without
a null dereference, having called `tryAttack` (the generator is the one
`tryAttack` leaves, two dice further), and the defender is dead afterwards
exactly when `tryAttack` succeeded. -/
theorem detected_intents_pass_revalidation (h : Heap) (npcs : List (Option Ref)) (a : Ref)
    (q q1 : BattleQueue)
    (hdet : DetectionVisitor.detectBattles { npcs := npcs, currentNPC := some a } h q
      = .ok q1) :
    ∃ added, q1.tasks = q.tasks ++ added ∧
      ∀ t ∈ added, ∃ b,
        t = { attacker := some a, defender := some b } ∧ a ≠ b ∧
        NPC.isAlive h a = true ∧ NPC.isAlive h b = true ∧
        NPC.calculateDistance h a (some b) ≤ NPC.getAttackDistance h a ∧
        NPC.canAttack h a (some b) = true ∧
        ∀ e : GameEngine, e.heap = h →
          ∃ e1, e.processBattle t = .ok e1 ∧
            e1.rng = (NPC.tryAttack h a (some b) e.rng).2 ∧
            e1.rng = (NPC.rollDice (NPC.rollDice e.rng).2).2 ∧
            NPC.isAlive e1.heap b = !(NPC.tryAttack h a (some b) e.rng).1 := by
  obtain ⟨added, hok, hadded⟩ := detectBattles_added h npcs a q
  rw [hok] at hdet
  cases hdet
  refine ⟨added, rfl, ?_⟩
  intro t ht
  rcases hadded with hnil | ⟨halive, hspec⟩
  · rw [hnil] at ht
    cases ht
  · rw [hspec] at ht
    obtain ⟨b, htb, hne, hb, hdist, hcan⟩ := mem_specIntents h npcs a t ht
    refine ⟨b, htb, fun hab => hne hab.symm, halive, hb, hdist, hcan, ?_⟩
    intro e he
    subst he
    subst htb
    have htry := tryAttack_of_canAttack e.heap a (some b) e.rng hcan
    refine ⟨_, processBattle_of_valid e a b halive hb hdist hcan, ?_, ?_, ?_⟩
    · rw [htry]
      split <;> rfl
    · split <;> rfl
    · rw [htry]
      by_cases hgt : (NPC.rollDice e.rng).1 > (NPC.rollDice (NPC.rollDice e.rng).2).1
      · rw [if_pos hgt]
        simp [hgt, setAlive_alive]
      · rw [if_neg hgt]
        simpa [hgt] using hb

theorem detected_intents_pass_revalidation_witness :
    DetectionVisitor.detectBattles { npcs := [some 0, some 1], currentNPC := some 0 }
        (heap2 sq wolf) {}
      = .ok { tasks := [{ attacker := some 0, defender := some 1 }], stopFlag := false } ∧
    ∃ e1, (engine2 sq wolf (Rng.ofList [2, 1])).processBattle
        { attacker := some 0, defender := some 1 } = .ok e1 ∧
      NPC.isAlive e1.heap 1 = false := by
  have hdet : DetectionVisitor.detectBattles { npcs := [some 0, some 1], currentNPC := some 0 }
      (heap2 sq wolf) {}
      = .ok { tasks := [{ attacker := some 0, defender := some 1 }], stopFlag := false } := by
    have hd := detectForNPC_eq (heap2 sq wolf) [some 0, some 1] 0 {} (by decide)
    have hs : specIntents (heap2 sq wolf) [some 0, some 1] 0
        = [{ attacker := some 0, defender := some 1 }] := by decide!
    rw [hs] at hd
    have hacc : DetectionVisitor.detectBattles { npcs := [some 0, some 1], currentNPC := some 0 }
        (heap2 sq wolf) {}
        = .ok (DetectionVisitor.detectForNPC { npcs := [some 0, some 1], currentNPC := some 0 }
            (heap2 sq wolf) 0 {}) := rfl
    rw [hacc, hd]
    rfl
  obtain ⟨added, hadd, hall⟩ := detected_intents_pass_revalidation (heap2 sq wolf)
    [some 0, some 1] 0 {} _ hdet
  have hmem : ({ attacker := some 0, defender := some 1 } : BattleTask) ∈ added := by
    have : added = [{ attacker := some 0, defender := some 1 }] := by
      simpa using hadd.symm
    rw [this]
    exact List.mem_singleton.mpr rfl
  obtain ⟨b, htb, _, _, _, _, _, hres⟩ := hall _ hmem
  have hb : b = 1 := by
    simp only [BattleTask.mk.injEq, Option.some.injEq, true_and] at htb
    exact htb.symm
  subst hb
  obtain ⟨e1, h1, _, _, hdead⟩ := hres (engine2 sq wolf (Rng.ofList [2, 1])) rfl
  exact ⟨hdet, e1, h1, by rw [hdead]; decide⟩

/-! ## Saving and loading a clamped position (C32) -/

/-- `clamp` of a non-positive value to `[0, 100]` is 0. -/
theorem clamp_nonpos (v : ℚ) (hv : v ≤ 0) : clamp v 0 100 = 0 := by
  unfold clamp
  rw [max_eq_right hv]
  exact min_eq_left (by norm_num)

/-- Coordinates with `x = 0` are not valid spawn coordinates. -/
theorem isValidCoordinates_zero (y : ℚ) : NPC.isValidCoordinates 0 y = false := by
  simp [NPC.isValidCoordinates]

/-- C32: saving and loading loses a reachable living agent. Let a living agent
stand within one step of the left edge (`x ≤` its move distance) and let the
direction drawn be `(-1, 0)`, of length `sqrt 1 = 1`. After `move` with the
engine's bounds the agent is alive at `x = 0`, inside the movement domain, where
`isValidCoordinates` is false; `saveToFile` writes a record for it; `createNPC`
returns null at these coordinates, so `loadFromFile` returns no agent for a
line that reads back as them. -/
theorem clamped_to_zero_not_reloaded (lib : MoveLib) (h h1 : Heap) (self : Ref) (g : Rng)
    (showDouble : ℚ → String) (parseRecord : String → Option (String × String × ℚ × ℚ))
    (filename : String)
    (halive : NPC.isAlive h self = true)
    (hx : (h self).x ≤ NPC.getMoveDistance h self)
    (hdx : (lib.dirDist g).1 = -1) (hdy : (lib.dirDist (lib.dirDist g).2).1 = 0)
    (hsqrt : lib.sqrt 1 = 1)
    (hmove : (NPC.move lib h self GameEngine.MAP_MIN_X GameEngine.MAP_MAX_X
      GameEngine.MAP_MIN_Y GameEngine.MAP_MAX_Y g).1 = h1) :
    NPC.isAlive h1 self = true ∧
    NPC.getX h1 self = 0 ∧
    (0 ≤ NPC.getY h1 self ∧ NPC.getY h1 self ≤ 100) ∧
    NPC.isValidCoordinates (NPC.getX h1 self) (NPC.getY h1 self) = false ∧
    NPCFactory.saveToFile showDouble h1 [some self] filename true
      = .ok { result := true,
              file := NPCFactory.typeToString (NPCFactory.stringToType
                  (NPC.getType h1 self)) ++ "," ++ NPC.getName h1 self ++ ","
                ++ showDouble (NPC.getX h1 self) ++ "," ++ showDouble (NPC.getY h1 self)
                ++ "\n",
              cout := ["Saved " ++ toString 1 ++ " NPCs to " ++ filename ++ "\n"],
              cerr := [] } ∧
    (∀ type name,
      (NPCFactory.createNPC type name (NPC.getX h1 self) (NPC.getY h1 self)).1 = none) ∧
    (∀ line typeStr name,
      parseRecord line = some (typeStr, name, NPC.getX h1 self, NPC.getY h1 self) →
      (NPCFactory.loadFromFile parseRecord filename (some [line])).loadedNPCs = []) := by
  have halive1 : NPC.isAlive h1 self = true := by
    rw [← hmove, move_alive]; exact halive
  have hx1 : NPC.getX h1 self = 0 := by
    rw [← hmove, move_alive_clamp lib h self _ _ _ _ g halive]
    simp only [NPC.getX, Function.update_same, hdx, hdy, GameEngine.MAP_MIN_X,
      GameEngine.MAP_MAX_X]
    have h11 : (-1 : ℚ) * -1 + 0 * 0 = 1 := by norm_num
    rw [h11, hsqrt]
    apply clamp_nonpos
    norm_num
    exact hx
  have hy1 := (move_bounds lib h self GameEngine.MAP_MIN_X GameEngine.MAP_MAX_X
    GameEngine.MAP_MIN_Y GameEngine.MAP_MAX_Y g halive
    (by norm_num [GameEngine.MAP_MIN_X, GameEngine.MAP_MAX_X])
    (by norm_num [GameEngine.MAP_MIN_Y, GameEngine.MAP_MAX_Y])).2
  rw [hmove] at hy1
  have hbad : NPC.isValidCoordinates (NPC.getX h1 self) (NPC.getY h1 self) = false := by
    rw [hx1]; exact isValidCoordinates_zero _
  have hnull : ∀ type name,
      (NPCFactory.createNPC type name (NPC.getX h1 self) (NPC.getY h1 self)).1 = none := by
    intro type name
    simp [NPCFactory.createNPC, hbad]
  refine ⟨halive1, hx1, hy1, hbad, ?_, hnull, ?_⟩
  · simp [NPCFactory.saveToFile, NPCFactory.saveRecords, halive1]
  · intro line typeStr name hp
    simp [NPCFactory.loadFromFile, loadRecords_eq, lineAgent, hp, hnull]

theorem clamped_to_zero_not_reloaded_witness :
    NPC.isAlive heapNearEdge 0 = true ∧
    NPC.getX (NPC.move libExample heapNearEdge 0 GameEngine.MAP_MIN_X GameEngine.MAP_MAX_X
      GameEngine.MAP_MIN_Y GameEngine.MAP_MAX_Y (Rng.ofList [0, 1000])).1 0 = 0 ∧
    NPC.getY (NPC.move libExample heapNearEdge 0 GameEngine.MAP_MIN_X GameEngine.MAP_MAX_X
      GameEngine.MAP_MIN_Y GameEngine.MAP_MAX_Y (Rng.ofList [0, 1000])).1 0 = 50 ∧
    NPC.isValidCoordinates 0 50 = false ∧
    NPCFactory.saveToFile showDoubleExample
        (NPC.move libExample heapNearEdge 0 GameEngine.MAP_MIN_X GameEngine.MAP_MAX_X
          GameEngine.MAP_MIN_Y GameEngine.MAP_MAX_Y (Rng.ofList [0, 1000])).1
        [some 0] "test_save.txt" true
      = .ok { result := true, file := "SQUIRREL,Sq,0,50\n",
              cout := ["Saved 1 NPCs to test_save.txt\n"], cerr := [] } ∧
    parseRecordExample "SQUIRREL,Sq,0,50" = some ("SQUIRREL", "Sq", 0, 50) ∧
    (NPCFactory.loadFromFile parseRecordExample "test_save.txt"
      (some ["SQUIRREL,Sq,0,50"])).loadedNPCs = [] := by
  have hy : NPC.getY (NPC.move libExample heapNearEdge 0 GameEngine.MAP_MIN_X
      GameEngine.MAP_MAX_X GameEngine.MAP_MIN_Y GameEngine.MAP_MAX_Y
      (Rng.ofList [0, 1000])).1 0 = 50 := by decide!
  have hp : parseRecordExample "SQUIRREL,Sq,0,50" = some ("SQUIRREL", "Sq", 0, 50) := by
    decide!
  obtain ⟨_, hx, _, _, hsave, _, hload⟩ := clamped_to_zero_not_reloaded libExample heapNearEdge
    _ 0 (Rng.ofList [0, 1000]) showDoubleExample parseRecordExample "test_save.txt"
    (by decide) (by decide!) (by decide!) (by decide!) (by decide!) rfl
  refine ⟨by decide, hx, hy, by decide!, ?_, hp, ?_⟩
  · rw [hsave, hx, hy]
    rfl
  · apply hload "SQUIRREL,Sq,0,50" "SQUIRREL" "Sq"
    rw [hx, hy]
    exact hp

end Lab7
